import Mathlib

/-!
Verification development for the `install-app` utility (a Deno CLI that
installs a compiled executable together with an icon and a Linux
`.desktop` launcher, and can list and uninstall such applications).

The TypeScript sources `src/install.ts` and `src/utils.ts` are shallowly
embedded here:

* strings are Lean `String`s (sequences of Unicode scalar values; the
  JS runtime works on UTF-16 code units, which only differs on
  characters beyond the BMP);
* the filesystem is a pair of association lists: file path to content,
  and a list of existing directory paths.  Writing prepends, reading
  takes the first match.  File-creating operations take a target
  directory (which must already exist, as on a real filesystem) and a
  file name, mirroring the `join(dir, name)` call sites of the source;
* fallible filesystem steps return `Except`; a thrown JS exception is
  an `Except.error` value and `try`/`catch` blocks are explicit matches;
* `@std/path`'s `join` is modelled without path normalisation (all path
  segments produced by the program are free of `.`/`..` components and
  duplicate separators), and `extname` follows the Node/posix
  algorithm;
* environment and OS (`Deno.env.get`, `Deno.build.os`) are explicit
  parameters: `env : String → Option String` and `os : String`.
-/

/-- JS truthiness of a `string | undefined` value: `undefined` and the
empty string are falsy. -/
def jsTruthy : Option String → Bool
  | none => false
  | some s => !(s = "")

/-- The characters that terminate a `.` match in a JS regular
expression (ECMAScript LineTerminator set). -/
def isJsLineTerminator (c : Char) : Bool :=
  c = '\n' || c = '\r' || c = '\u2028' || c = '\u2029'

/-- The characters stripped by JS `String.prototype.trim`
(ECMAScript WhiteSpace and LineTerminator sets). -/
def isJsWhitespace (c : Char) : Bool :=
  c = ' ' || c = '\t' || c = '\n' || c = '\r' || c = '\u000b' || c = '\u000c' ||
  c = '\u00a0' || c = '\ufeff' || c = '\u1680' ||
  ('\u2000' ≤ c && c ≤ '\u200a') ||
  c = '\u2028' || c = '\u2029' || c = '\u202f' || c = '\u205f' || c = '\u3000'

/-- JS `String.prototype.trim`. -/
def jsTrim (s : String) : String :=
  ⟨((s.data.dropWhile isJsWhitespace).reverse.dropWhile isJsWhitespace).reverse⟩

/-- The capture group of the first match of the JS regular expression
`/Name=(.*)/` in a string: everything after the first occurrence of
`Name=` up to the next line terminator.  `none` when `Name=` does not
occur.  Models `s.match(/Name=(.*)/)?.at(1)` from `listApps`. -/
def findNameCapture : List Char → Option (List Char)
  | 'N' :: 'a' :: 'm' :: 'e' :: '=' :: rest =>
      some (rest.takeWhile (fun c => !(isJsLineTerminator c)))
  | _ :: rest => findNameCapture rest
  | [] => none

/-- The character class `[a-zA-Z0-9_-]` of the sanitising regular
expression in `sanitizeFileName`. -/
def isAllowedChar (c : Char) : Bool :=
  ('a' ≤ c && c ≤ 'z') || ('A' ≤ c && c ≤ 'Z') || ('0' ≤ c && c ≤ '9') ||
  c = '_' || c = '-'

/-- `src/install.ts`, `sanitizeFileName`:
`name.replace(/[^a-zA-Z0-9_-]/g, "_")`. -/
def sanitizeFileName (name : String) : String :=
  ⟨name.data.map (fun c => if isAllowedChar c then c else '_')⟩

/-- `@std/path` `join` restricted to two segments, without
normalisation: empty segments are skipped, non-empty ones are glued
with `/`.  (Multi-argument `join` calls in the source are folds of
this.) -/
def join2 (a b : String) : String :=
  if a = "" then b else if b = "" then a else a ++ "/" ++ b

/-- `@std/path` posix `extname`.  On the basename of the path (after
trailing separators are removed): the suffix starting at the last `.`,
except that a path with no dot, a basename whose only dot is the
leading character, or the basename `..` yield the empty string. -/
def extname (p : String) : String :=
  let b := ((p.data.reverse.dropWhile (fun c => c = '/')).takeWhile (fun c => !(c = '/'))).reverse
  if b = ['.', '.'] then ""
  else
    let afterRev := b.reverse.takeWhile (fun c => !(c = '.'))
    if afterRev.length = b.length then ""  -- no dot in the basename
    else if b.length = afterRev.length + 1 then ""  -- the only dot is the first character
    else ⟨'.' :: afterRev.reverse⟩

/-- `src/utils.ts`, `getDataDir`: the platform data directory, from
`Deno.build.os` and the environment. -/
def getDataDir (os : String) (env : String → Option String) : Option String :=
  if os = "linux" then
    if jsTruthy (env "XDG_DATA_HOME") then env "XDG_DATA_HOME"
    else if jsTruthy (env "HOME") then (env "HOME").map (fun h => h ++ "/.local/share")
    else none
  else if os = "darwin" then
    if jsTruthy (env "HOME") then (env "HOME").map (fun h => h ++ "/Library/Application Support")
    else none
  else if os = "windows" then
    env "APPDATA"
  else none

/-- The `InstallMetadata` interface of `src/install.ts` (the parsed
contents of `assets/install.json`). -/
structure InstallMetadata where
  name : String
  id : Option String
  version : String
  description : String
  icon : String
deriving DecidableEq, Repr

/-- Contents of a file in the filesystem model.  `text` is a text file;
`jmeta` is a `metadata.json` file holding `JSON.stringify` of a
metadata record (`JSON.parse` of such a file recovers the record, and
of anything else is modelled as throwing); `blob` is opaque binary
content (executables, icons) identified by a tag, so that copying
preserves it. -/
inductive FileContent where
  | text (s : String)
  | jmeta (m : InstallMetadata)
  | blob (tag : Nat)
deriving DecidableEq, Repr

/-- Filesystem state: files (path to content, first match wins) and
existing directories. -/
structure FS where
  files : List (String × FileContent)
  dirs : List String
deriving DecidableEq, Repr

def FS.readFile (fs : FS) (p : String) : Option FileContent :=
  (fs.files.find? (fun kv => kv.1 = p)).map (fun kv => kv.2)

def FS.hasDir (fs : FS) (p : String) : Bool :=
  fs.dirs.contains p

/-- `existsSync`: true when a file or a directory exists at the path. -/
def FS.existsPath (fs : FS) (p : String) : Bool :=
  (fs.readFile p).isSome || fs.hasDir p

/-- `ensureDirSync` (parents of the given directory are ensured by the
call sites in the embedding, matching its recursive behaviour). -/
def FS.ensureDir (fs : FS) (p : String) : FS :=
  if fs.hasDir p then fs else { fs with dirs := p :: fs.dirs }

def FS.writeFile (fs : FS) (p : String) (c : FileContent) : FS :=
  { fs with files := (p, c) :: fs.files }

def FS.removeFileEntries (fs : FS) (p : String) : FS :=
  { fs with files := fs.files.filter (fun kv => !(kv.1 = p)) }

/-- Recursive removal of the entry at `p` and of everything below it. -/
def FS.removeTree (fs : FS) (p : String) : FS :=
  { files := fs.files.filter (fun kv => !(kv.1 = p || (p ++ "/").data.isPrefixOf kv.1.data)),
    dirs := fs.dirs.filter (fun d => !(d = p || (p ++ "/").data.isPrefixOf d.data)) }

/-- Failures surfaced by the installer (thrown JS errors / the
`assert`). -/
inductive IErr where
  | noDataDir
  | fsNotFound
  | fsTargetConflict
  | unsupportedIconFormat
deriving DecidableEq, Repr

deriving instance DecidableEq for Except

/-- `Deno.renameSync(src, join(destDir, destName))`: the source file
and the destination directory must exist and the destination must not
be an existing directory; an existing destination file is overwritten. -/
def FS.renameIn (fs : FS) (src destDir destName : String) : Except IErr FS :=
  match fs.readFile src with
  | none => .error .fsNotFound
  | some c =>
    if fs.hasDir destDir then
      if fs.hasDir (join2 destDir destName) then .error .fsTargetConflict
      else .ok ((fs.removeFileEntries src).writeFile (join2 destDir destName) c)
    else .error .fsNotFound

/-- `Deno.copyFileSync(src, join(destDir, destName))`. -/
def FS.copyFileIn (fs : FS) (src destDir destName : String) : Except IErr FS :=
  match fs.readFile src with
  | none => .error .fsNotFound
  | some c =>
    if fs.hasDir destDir then
      if fs.hasDir (join2 destDir destName) then .error .fsTargetConflict
      else .ok (fs.writeFile (join2 destDir destName) c)
    else .error .fsNotFound

/-- `Deno.writeTextFileSync(join(destDir, destName), …)` (also used for
`metadata.json`). -/
def FS.writeFileIn (fs : FS) (destDir destName : String) (c : FileContent) : Except IErr FS :=
  if fs.hasDir destDir then
    if fs.hasDir (join2 destDir destName) then .error .fsTargetConflict
    else .ok (fs.writeFile (join2 destDir destName) c)
  else .error .fsNotFound

/-- `Deno.removeSync(p, { recursive: true })`: throws when nothing
exists at `p`. -/
def FS.removeRecursiveStep (fs : FS) (p : String) : Except Unit FS :=
  if fs.existsPath p then .ok (fs.removeTree p) else .error ()

/-- `Deno.removeSync(p)` on a file: throws when the file is absent.
(The paths this is applied to in the program are never directories.) -/
def FS.removeFileStep (fs : FS) (p : String) : Except Unit FS :=
  if (fs.readFile p).isSome then .ok (fs.removeFileEntries p) else .error ()

def BASE_INSTALL_DIR_NAME : String := "deno-installed-apps"

/-- `join(dataDir, BASE_INSTALL_DIR_NAME)`. -/
def appsPathOf (dataDir : String) : String :=
  join2 dataDir BASE_INSTALL_DIR_NAME

/-- `join(dataDir, "icons", "hicolor", "scalable", "apps")`. -/
def iconsAppsDirOf (dataDir : String) : String :=
  join2 (join2 (join2 (join2 dataDir "icons") "hicolor") "scalable") "apps"

/-- `join(dataDir, "applications")`. -/
def applicationsDirOf (dataDir : String) : String :=
  join2 dataDir "applications"

/-- The install directory `uninstallApp` operates on:
`join(dataDir, BASE_INSTALL_DIR_NAME, sanitizeFileName(appName))`. -/
def uninstallTargetPath (dataDir appName : String) : String :=
  join2 (appsPathOf dataDir) (sanitizeFileName appName)

/-- `p` is of the form `root ++ "/" ++ c` with `c` a non-empty name
containing no separator: a direct child of `root`. -/
def isDirectChildPath (root p : String) : Bool :=
  (root ++ "/").data.isPrefixOf p.data &&
  !(p.data.drop (root.length + 1) = []) &&
  !((p.data.drop (root.length + 1)).contains '/')

/-- The `.desktop` template literal written by `installApp` (both
branches write this shape, differing only in the `Icon=` value). -/
def desktopEntryText (name execPath icon : String) : String :=
  "\n[Desktop Entry]\nName=" ++ name ++ "\nExec=" ++ execPath ++
  "\nIcon=" ++ icon ++ "\nType=Application\nCategories=Utility;\n"

/-- `src/install.ts`, `installApp`, after the `getDataDir` assert: the
state transformation on the filesystem, returning the state reached
when an exception is thrown part-way. -/
def installAppCore (dataDir executablePath : String) (metadata : InstallMetadata)
    (appDir : String) (fs : FS) : FS × Except IErr Unit :=
  let appsPath := appsPathOf dataDir
  let binName := sanitizeFileName metadata.name
  let hostBinDirPath := join2 appsPath binName
  let fs0 := (fs.ensureDir appsPath).ensureDir hostBinDirPath
  -- 1. Install App
  match fs0.renameIn executablePath hostBinDirPath binName with
  | .error e => (fs0, .error e)
  | .ok fs1 =>
    match fs1.writeFileIn hostBinDirPath "metadata.json" (.jmeta metadata) with
    | .error e => (fs1, .error e)
    | .ok fs2 =>
      if jsTruthy metadata.id then
        let iconExt := extname metadata.icon
        if !(iconExt = ".svg") then
          (fs2, .error .unsupportedIconFormat)
        else
          -- 2. Install Icon
          match fs2.copyFileIn (join2 (join2 appDir "assets") metadata.icon)
              (iconsAppsDirOf dataDir) ((metadata.id.getD "") ++ iconExt) with
          | .error e => (fs2, .error e)
          | .ok fs3 =>
            -- 3. Install Metadata by creating a linux desktop file
            let fs4 := fs3.ensureDir (applicationsDirOf dataDir)
            match fs4.writeFileIn (applicationsDirOf dataDir)
                ((metadata.id.getD "") ++ ".desktop")
                (.text (desktopEntryText metadata.name (join2 hostBinDirPath binName)
                  (metadata.id.getD ""))) with
            | .error e => (fs4, .error e)
            | .ok fs5 => (fs5, .ok ())
      else
        -- 2. Install Icon
        match fs2.copyFileIn (join2 (join2 appDir "assets") metadata.icon)
            hostBinDirPath metadata.icon with
        | .error e => (fs2, .error e)
        | .ok fs3 =>
          -- 3. Install Metadata by creating a linux desktop file
          let fs4 := fs3.ensureDir (applicationsDirOf dataDir)
          match fs4.writeFileIn (applicationsDirOf dataDir)
              ((sanitizeFileName metadata.name) ++ ".desktop")
              (.text (desktopEntryText metadata.name (join2 hostBinDirPath binName)
                (join2 hostBinDirPath metadata.icon))) with
          | .error e => (fs4, .error e)
          | .ok fs5 => (fs5, .ok ())

/-- `installApp` including its `getDataDir` assert. -/
def installApp (os : String) (env : String → Option String) (executablePath : String)
    (metadata : InstallMetadata) (appDir : String) (fs : FS) : FS × Except IErr Unit :=
  match getDataDir os env with
  | none => (fs, .error .noDataDir)
  | some dataDir => installAppCore dataDir executablePath metadata appDir fs

/-- `JSON.parse(Deno.readTextFileSync(metadataPath)).id` in `listApps`:
recover the optional `id` from a `metadata.json` file; parsing anything
that is not a stored metadata record throws. -/
def metadataIdOf : FileContent → Except Unit (Option String)
  | .jmeta m => .ok m.id
  | _ => .error ()

/-- `JSON.parse` of a `metadata.json` read whose failure is swallowed
(`uninstallApp`). -/
def parseMetadataOpt : Option FileContent → Option InstallMetadata
  | some (.jmeta m) => some m
  | _ => none

/-- `Deno.readTextFileSync` on a file's content (launcher files are
always `text` in this embedding; reading binary content as text
throws). -/
def readTextContent : FileContent → Except Unit String
  | .text s => .ok s
  | _ => .error ()

/-- `Deno.readDirSync(appsPath)` filtered to directories, yielding the
entry names (the path component below `root`), in the order of
`FS.dirs`. -/
def entryNamesOf (fs : FS) (root : String) : List String :=
  (fs.dirs.filter (fun d => isDirectChildPath root d)).map
    (fun d => ⟨d.data.drop (root.length + 1)⟩)

/-- One iteration of the `listApps` loop for the entry `appName`:
read `metadata.json` if it exists, compute the expected launcher path,
read it (`.error` = a thrown exception reaching the surrounding
`try`), and extract the trimmed `Name=` capture. -/
def listEntry (fs : FS) (dataDir appsPath appName : String) : Except Unit (Option String) := do
  let metadataPath := join2 (join2 appsPath appName) "metadata.json"
  let id : Option String ←
    match fs.readFile metadataPath with
    | some c => metadataIdOf c
    | none => .ok none
  let desktopFilePath :=
    if jsTruthy id then join2 (applicationsDirOf dataDir) ((id.getD "") ++ ".desktop")
    else join2 (applicationsDirOf dataDir) (appName ++ ".desktop")
  let content ←
    match fs.readFile desktopFilePath with
    | some c => readTextContent c
    | none => .error ()
  .ok ((findNameCapture content.data).map (fun l => jsTrim ⟨l⟩))

/-- Accumulated outcome of the `listApps` loop: the display names
pushed to `apps`, the entries warned about (`Could not read orignal
name of …`), and whether a thrown exception aborted the loop. -/
structure ListAcc where
  apps : List String
  warned : List String
  aborted : Bool
deriving DecidableEq, Repr

/-- The `for (const dirEntry of Deno.readDirSync(appsPath))` loop of
`listApps`.  A thrown exception aborts the loop and discards the names
collected so far (they are only printed after the loop, inside the
`try`); warnings already printed are kept. -/
def listLoop (fs : FS) (dataDir appsPath : String) : List String → ListAcc
  | [] => ⟨[], [], false⟩
  | a :: rest =>
    match listEntry fs dataDir appsPath a with
    | .error _ => ⟨[], [], true⟩
    | .ok oname =>
      let acc := listLoop fs dataDir appsPath rest
      if jsTruthy oname then ⟨(oname.getD "") :: acc.apps, acc.warned, acc.aborted⟩
      else ⟨acc.apps, a :: acc.warned, acc.aborted⟩

/-- What `listApps` reports. -/
inductive ListOutcome where
  | noApps
  | listed (names : List String)
  | errorListing
deriving DecidableEq, Repr

structure ListResult where
  outcome : ListOutcome
  warned : List String
deriving DecidableEq, Repr

/-- `src/install.ts`, `listApps`, after the `getDataDir` assert. -/
def listAppsCore (dataDir : String) (fs : FS) : ListResult :=
  let appsPath := appsPathOf dataDir
  if !(fs.existsPath appsPath) then ⟨.noApps, []⟩
  else if !(fs.hasDir appsPath) then ⟨.errorListing, []⟩  -- readDirSync throws on a non-directory
  else
    let acc := listLoop fs dataDir appsPath (entryNamesOf fs appsPath)
    if acc.aborted then ⟨.errorListing, acc.warned⟩
    else if acc.apps = [] then ⟨.noApps, acc.warned⟩
    else ⟨.listed acc.apps, acc.warned⟩

/-- `listApps` including its `getDataDir` assert (`none` when the
assert fires). -/
def listApps (os : String) (env : String → Option String) (fs : FS) : Option ListResult :=
  match getDataDir os env with
  | none => none
  | some dataDir => some (listAppsCore dataDir fs)

/-- What `uninstallApp` reports. -/
inductive UninstallOutcome where
  | notInstalled
  | uninstalled
  | errorLogged
deriving DecidableEq, Repr

/-- Result of `uninstallApp`: the final filesystem, the reported
outcome, and the list of paths whose deletion was attempted, in
order. -/
structure UninstallResult where
  fs : FS
  outcome : UninstallOutcome
  attempted : List String
deriving DecidableEq, Repr

/-- `src/install.ts`, `uninstallApp`, after the `getDataDir` assert.
The three `Deno.removeSync` calls sit in a single `try` block: the
first one that throws transfers control to the `catch`. -/
def uninstallAppCore (dataDir appName : String) (fs : FS) : UninstallResult :=
  let binName := sanitizeFileName appName
  let appPath := uninstallTargetPath dataDir appName
  if !(fs.existsPath appPath) then ⟨fs, .notInstalled, []⟩
  else
    let metadata := parseMetadataOpt (fs.readFile (join2 appPath "metadata.json"))
    let mId := metadata.bind (fun m => m.id)
    let desktopFilePath :=
      if jsTruthy mId then join2 (applicationsDirOf dataDir) ((mId.getD "") ++ ".desktop")
      else join2 (applicationsDirOf dataDir) (binName ++ ".desktop")
    match fs.removeRecursiveStep appPath with
    | .error _ => ⟨fs, .errorLogged, [appPath]⟩
    | .ok fs1 =>
      match fs1.removeFileStep desktopFilePath with
      | .error _ => ⟨fs1, .errorLogged, [appPath, desktopFilePath]⟩
      | .ok fs2 =>
        if jsTruthy mId then
          let iconPath := join2 (iconsAppsDirOf dataDir)
            ((mId.getD "") ++ extname ((metadata.map (fun m => m.icon)).getD ""))
          match fs2.removeFileStep iconPath with
          | .error _ => ⟨fs2, .errorLogged, [appPath, desktopFilePath, iconPath]⟩
          | .ok fs3 => ⟨fs3, .uninstalled, [appPath, desktopFilePath, iconPath]⟩
        else ⟨fs2, .uninstalled, [appPath, desktopFilePath]⟩

/-- `uninstallApp` including its `getDataDir` assert. -/
def uninstallApp (os : String) (env : String → Option String) (appName : String)
    (fs : FS) : Option UninstallResult :=
  match getDataDir os env with
  | none => none
  | some dataDir => some (uninstallAppCore dataDir appName fs)

/-! ### Derived path notations (the joined paths appearing in `installApp`) -/

/-- `join(appsPath, binName)`: the per-application install directory. -/
def hostBinDirOf (dataDir name : String) : String :=
  join2 (appsPathOf dataDir) (sanitizeFileName name)

/-- `join(hostBinDirPath, binName)`: the installed executable. -/
def installedExecPath (dataDir name : String) : String :=
  join2 (hostBinDirOf dataDir name) (sanitizeFileName name)

/-- `join(hostBinDirPath, "metadata.json")`. -/
def installedMetaPath (dataDir name : String) : String :=
  join2 (hostBinDirOf dataDir name) "metadata.json"

/-- `join(dataDir, "applications", id + ".desktop")`. -/
def desktopPathOfId (dataDir idv : String) : String :=
  join2 (applicationsDirOf dataDir) (idv ++ ".desktop")

/-- `join(dataDir, "applications", binName + ".desktop")`. -/
def desktopPathOfName (dataDir name : String) : String :=
  join2 (applicationsDirOf dataDir) (sanitizeFileName name ++ ".desktop")

/-- `join(dataDir, "icons", "hicolor", "scalable", "apps", id + ext)`. -/
def installedIconPathOfId (dataDir idv ext : String) : String :=
  join2 (iconsAppsDirOf dataDir) (idv ++ ext)

/-- `join(hostBinDirPath, metadata.icon)` (no-id branch icon copy). -/
def installedIconPathNoId (dataDir name icon : String) : String :=
  join2 (hostBinDirOf dataDir name) icon

/-- `join(appDir, "assets", metadata.icon)`: the icon source. -/
def iconSrcPath (appDir icon : String) : String :=
  join2 (join2 appDir "assets") icon

/-! ### Claim-side definitions (written from the specification's words,
to be compared with the behaviour of the embedded code) -/

/-- Modelled from the claim wording (C6): the character class
`[A-Za-z0-9_-]` exactly as the specification writes it. -/
def specAllowedChar (c : Char) : Prop :=
  ('A' ≤ c ∧ c ≤ 'Z') ∨ ('a' ≤ c ∧ c ≤ 'z') ∨ ('0' ≤ c ∧ c ≤ '9') ∨ c = '_' ∨ c = '-'

/-- The OS values `getDataDir` has cases for; any other value is "an
unknown OS" in the sense of C7. -/
def knownOS (os : String) : Bool :=
  os = "linux" || os = "darwin" || os = "windows"

/-- Modelled from the claim wording (C7): "the required environment
variable is missing", reading "missing" as absent from the environment.
On Linux either of `XDG_DATA_HOME` and `HOME` can supply the data
directory, so the requirement is that both are absent. -/
def requiredEnvAbsent (os : String) (env : String → Option String) : Bool :=
  if os = "linux" then (env "XDG_DATA_HOME").isNone && (env "HOME").isNone
  else if os = "darwin" then (env "HOME").isNone
  else if os = "windows" then (env "APPDATA").isNone
  else true

/-- Modelled from the claim wording (C7), under the alternative reading
of "missing" as unset-or-empty (JS-falsy). -/
def requiredEnvFalsy (os : String) (env : String → Option String) : Bool :=
  if os = "linux" then !(jsTruthy (env "XDG_DATA_HOME")) && !(jsTruthy (env "HOME"))
  else if os = "darwin" then !(jsTruthy (env "HOME"))
  else if os = "windows" then !(jsTruthy (env "APPDATA"))
  else true

/-! ### Concrete scenarios for witnesses and counterexamples -/

/-- A fresh initial filesystem for installing metadata `m` with data
directory `/data`, project directory `/proj` and executable path
`bin`: the executable, the icon asset, and the pre-existing system
icon-theme directory. -/
def initFS (m : InstallMetadata) : FS :=
  ⟨[("bin", .blob 0), (join2 (join2 "/proj" "assets") m.icon, .blob 1)],
   ["/data/icons/hicolor/scalable/apps"]⟩

def mWithIdSvg : InstallMetadata :=
  ⟨"My App", some "com.example.my_app", "1.0.0", "My awesome app", "icon.svg"⟩

def mWithIdPng : InstallMetadata :=
  ⟨"My App", some "com.example.my_app", "1.0.0", "My awesome app", "icon.png"⟩

def mNoId : InstallMetadata := ⟨"My App", none, "1.0", "demo", "ic.png"⟩

/-- Metadata whose `name` carries a trailing space. -/
def mTrailingSpace : InstallMetadata := ⟨"My App ", none, "1.0", "demo", "ic.svg"⟩

/-- An installed application `My_App` (with id `com.example.x`) whose
launcher file is missing, while its system icon is present. -/
def mUninst : InstallMetadata := ⟨"My App", some "com.example.x", "1", "d", "icon.svg"⟩

def fsUninstMissingDesktop : FS :=
  ⟨[("/data/deno-installed-apps/My_App/metadata.json", .jmeta mUninst),
    ("/data/deno-installed-apps/My_App/My_App", .blob 0),
    ("/data/icons/hicolor/scalable/apps/com.example.x.svg", .blob 5)],
   ["/data/deno-installed-apps/My_App", "/data/deno-installed-apps",
    "/data/applications", "/data/icons/hicolor/scalable/apps"]⟩

/-- Two installed-application directories: `A` (its launcher file is
missing, so reading it throws) listed before `B` (a perfectly readable
entry whose launcher says `Name=Good`). -/
def fsListAbort : FS :=
  ⟨[("/data/applications/B.desktop", .text "\n[Desktop Entry]\nName=Good\nExec=x\n")],
   ["/data/deno-installed-apps/A", "/data/deno-installed-apps/B",
    "/data/deno-installed-apps", "/data/applications"]⟩

/-- Environment with `HOME` present but set to the empty string. -/
def envHomeEmpty : String → Option String :=
  fun v => if v = "HOME" then some "" else none

/-- Environment with `APPDATA` present but set to the empty string. -/
def envAppdataEmpty : String → Option String :=
  fun v => if v = "APPDATA" then some "" else none

/-- Environment with only `XDG_DATA_HOME` set (to `/xdg`). -/
def envXdg : String → Option String :=
  fun v => if v = "XDG_DATA_HOME" then some "/xdg" else none

/-- One installed-application directory `W` whose launcher file exists
but has no `Name=` line. -/
def fsWarn : FS :=
  ⟨[("/data/applications/W.desktop", .text "\n[Desktop Entry]\nExec=x\n")],
   ["/data/deno-installed-apps", "/data/deno-installed-apps/W", "/data/applications"]⟩

/-! ### String and list toolkit -/

theorem str_data_inj {a b : String} (h : a.data = b.data) : a = b := by
  cases a
  cases b
  exact congrArg String.mk h

theorem str_data_append (a b : String) : (a ++ b).data = a.data ++ b.data :=
  String.data_append a b

theorem str_length_data (s : String) : s.length = s.data.length := rfl

theorem str_length_eq_zero {a : String} : a.length = 0 ↔ a = "" := by
  constructor
  · intro h
    apply str_data_inj
    simpa using List.length_eq_zero.mp h
  · intro h; subst h; rfl

theorem str_ne_of_length_ne {a b : String} (h : ¬ a.length = b.length) : ¬ a = b := by
  intro he; exact h (he ▸ rfl)

theorem str_app_right_inj (d : String) {x y : String} : d ++ x = d ++ y ↔ x = y := by
  constructor
  · intro h
    apply str_data_inj
    have h2 := congrArg String.data h
    rw [str_data_append, str_data_append] at h2
    exact List.append_cancel_left h2
  · intro h; rw [h]

theorem str_app_right_ne (d : String) {x y : String} (h : ¬ x = y) : ¬ d ++ x = d ++ y :=
  fun he => h ((str_app_right_inj d).mp he)

theorem str_take_ne {a b : String} (k : Nat) (h : ¬ a.data.take k = b.data.take k) : ¬ a = b := by
  intro he; subst he; exact h rfl

theorem str_app_app_take_ne (p q u v : String) (k : Nat)
    (h1 : k ≤ p.length) (h2 : k ≤ q.length)
    (h : ¬ p.data.take k = q.data.take k) : ¬ p ++ u = q ++ v := by
  apply str_take_ne k
  rw [str_data_append, str_data_append,
    List.take_append_of_le_length h1, List.take_append_of_le_length h2]
  exact h

theorem append_ne_empty_left {a : String} (b : String) (ha : ¬ a = "") : ¬ a ++ b = "" := by
  intro he
  have h := congrArg String.length he
  rw [String.length_append] at h
  have h0 : ¬ a.length = 0 := fun hz => ha (str_length_eq_zero.mp hz)
  have hz : ("" : String).length = 0 := rfl
  omega

theorem sanitizeFileName_data (s : String) :
    (sanitizeFileName s).data = s.data.map (fun c => if isAllowedChar c then c else '_') := rfl

theorem sanitizeFileName_length (s : String) : (sanitizeFileName s).length = s.length := by
  show (sanitizeFileName s).data.length = s.data.length
  rw [sanitizeFileName_data, List.length_map]

theorem sanitizeFileName_allowed (s : String) :
    ∀ c ∈ (sanitizeFileName s).data, isAllowedChar c = true := by
  intro c hc
  rw [sanitizeFileName_data] at hc
  obtain ⟨a, _, rfl⟩ := List.mem_map.mp hc
  by_cases h : isAllowedChar a = true
  · rw [if_pos h]; exact h
  · rw [if_neg h]; decide

theorem sanitizeFileName_not_mem {s : String} {c : Char} (hb : isAllowedChar c = false) :
    c ∉ (sanitizeFileName s).data := by
  intro hc
  have h := sanitizeFileName_allowed s c hc
  rw [h] at hb
  cases hb

theorem sanitizeFileName_ne_of_bad {t : String} {c : Char} (hc : c ∈ t.data)
    (hb : isAllowedChar c = false) (s : String) : ¬ sanitizeFileName s = t := by
  intro he
  exact sanitizeFileName_not_mem hb (he ▸ hc)

theorem sanitizeFileName_ne_empty {s : String} (h : ¬ s = "") : ¬ sanitizeFileName s = "" := by
  apply str_ne_of_length_ne
  rw [sanitizeFileName_length]
  intro hl
  exact h (str_length_eq_zero.mp hl)

theorem sanitizeFileName_no_slash (s : String) :
    ((sanitizeFileName s).data.contains '/') = false := by
  rw [List.contains_eq_any_beq, List.any_eq_false]
  intro c hc
  have h := sanitizeFileName_allowed s c hc
  intro hbeq
  have he : '/' = c := beq_iff_eq.mp hbeq
  subst he
  exact absurd h (by decide)

theorem join2_of_ne {a b : String} (ha : ¬ a = "") (hb : ¬ b = "") :
    join2 a b = a ++ "/" ++ b := by
  unfold join2
  rw [if_neg ha, if_neg hb]

theorem join2_empty_right (a : String) (ha : ¬ a = "") : join2 a "" = a := by
  unfold join2
  rw [if_neg ha, if_pos rfl]

/-! ### Filesystem operation lemmas -/

theorem readFile_ensureDir (fs : FS) (d p : String) :
    (fs.ensureDir d).readFile p = fs.readFile p := by
  unfold FS.ensureDir
  split <;> rfl

theorem dirs_ensureDir_of_not (fs : FS) (d : String) (h : fs.hasDir d = false) :
    (fs.ensureDir d).dirs = d :: fs.dirs := by
  unfold FS.ensureDir
  rw [if_neg (by rw [h]; exact fun hc => nomatch hc)]

theorem hasDir_ensureDir (fs : FS) (d p : String) :
    (fs.ensureDir d).hasDir p = (if p = d then true else fs.hasDir p) := by
  unfold FS.ensureDir
  by_cases hd : fs.hasDir d = true
  · rw [if_pos hd]
    by_cases hp : p = d
    · rw [if_pos hp, hp]; exact hd
    · rw [if_neg hp]
  · rw [if_neg hd]
    show FS.hasDir ⟨fs.files, d :: fs.dirs⟩ p = _
    unfold FS.hasDir
    show (d :: fs.dirs).contains p = _
    rw [List.contains_cons]
    by_cases hp : p = d
    · rw [if_pos hp, beq_iff_eq.mpr hp, Bool.true_or]
    · rw [if_neg hp, beq_eq_false_iff_ne.mpr hp, Bool.false_or]

theorem hasDir_writeFile (fs : FS) (q : String) (c : FileContent) (p : String) :
    (fs.writeFile q c).hasDir p = fs.hasDir p := rfl

theorem dirs_writeFile (fs : FS) (q : String) (c : FileContent) :
    (fs.writeFile q c).dirs = fs.dirs := rfl

theorem hasDir_removeFileEntries (fs : FS) (q p : String) :
    (fs.removeFileEntries q).hasDir p = fs.hasDir p := rfl

theorem dirs_removeFileEntries (fs : FS) (q : String) :
    (fs.removeFileEntries q).dirs = fs.dirs := rfl

theorem readFile_writeFile (fs : FS) (q : String) (c : FileContent) (p : String) :
    (fs.writeFile q c).readFile p = (if p = q then some c else fs.readFile p) := by
  unfold FS.writeFile FS.readFile
  show (List.find? _ ((q, c) :: fs.files)).map _ = _
  rw [List.find?_cons]
  by_cases hp : p = q
  · subst hp
    simp
  · simp [Ne.symm hp, hp]

theorem find?_filter_ne_key (q p : String) (l : List (String × FileContent)) :
    (l.filter (fun kv => !(kv.1 = q))).find? (fun kv => kv.1 = p) =
      (if p = q then none else l.find? (fun kv => kv.1 = p)) := by
  induction l with
  | nil => by_cases hp : p = q <;> simp [hp]
  | cons x xs ih =>
    by_cases hx : x.1 = q <;> by_cases hp : p = q <;>
      by_cases hxp : x.1 = p <;>
      simp_all [List.filter_cons, List.find?_cons]

theorem readFile_removeFileEntries (fs : FS) (q p : String) :
    (fs.removeFileEntries q).readFile p = (if p = q then none else fs.readFile p) := by
  unfold FS.removeFileEntries FS.readFile
  show ((fs.files.filter _).find? _).map _ = _
  rw [find?_filter_ne_key]
  by_cases hp : p = q
  · rw [if_pos hp, if_pos hp]
    rfl
  · rw [if_neg hp, if_neg hp]

theorem append_ne_empty_right (a : String) {b : String} (hb : ¬ b = "") : ¬ a ++ b = "" := by
  intro he
  have h := congrArg String.length he
  rw [String.length_append] at h
  have h0 : ¬ b.length = 0 := fun hz => hb (str_length_eq_zero.mp hz)
  have hz : ("" : String).length = 0 := rfl
  omega

theorem str_glue (a b ab : String) (h : a ++ b = ab) (x : String) : a ++ (b ++ x) = ab ++ x := by
  rw [← String.append_assoc, h]

theorem str_ne_app_take (p q u : String) (k : Nat) (h1 : k ≤ p.length) (h2 : k ≤ q.length)
    (h : ¬ p.data.take k = q.data.take k) : ¬ p = q ++ u := by
  apply str_take_ne k
  rw [str_data_append, List.take_append_of_le_length h2]
  exact h

theorem str_app_ne_take (p u q : String) (k : Nat) (h1 : k ≤ p.length) (h2 : k ≤ q.length)
    (h : ¬ p.data.take k = q.data.take k) : ¬ p ++ u = q := by
  apply str_take_ne k
  rw [str_data_append, List.take_append_of_le_length h1]
  exact h

/-! ### Path normalisation lemmas -/

theorem appsPathOf_eq {d : String} (hd : ¬ d = "") :
    appsPathOf d = d ++ "/deno-installed-apps" := by
  unfold appsPathOf BASE_INSTALL_DIR_NAME
  rw [join2_of_ne hd (by decide), String.append_assoc]
  exact congrArg (fun x => d ++ x) (by decide)

theorem appsPathOf_ne_empty (d : String) : ¬ appsPathOf d = "" := by
  unfold appsPathOf join2 BASE_INSTALL_DIR_NAME
  by_cases hd : d = ""
  · rw [if_pos hd]
    decide
  · rw [if_neg hd, if_neg (by decide)]
    exact append_ne_empty_right _ (by decide)

theorem applicationsDirOf_eq {d : String} (hd : ¬ d = "") :
    applicationsDirOf d = d ++ "/applications" := by
  unfold applicationsDirOf
  rw [join2_of_ne hd (by decide), String.append_assoc]
  exact congrArg (fun x => d ++ x) (by decide)

theorem iconsAppsDirOf_eq {d : String} (hd : ¬ d = "") :
    iconsAppsDirOf d = d ++ "/icons/hicolor/scalable/apps" := by
  unfold iconsAppsDirOf
  rw [join2_of_ne hd (by decide)]
  rw [join2_of_ne (append_ne_empty_right _ (by decide)) (by decide)]
  rw [join2_of_ne (append_ne_empty_right _ (by decide)) (by decide)]
  rw [join2_of_ne (append_ne_empty_right _ (by decide)) (by decide)]
  simp only [String.append_assoc]
  exact congrArg (fun x => d ++ x) (by decide)

theorem hostBinDirOf_eq {d name : String} (hd : ¬ d = "") (hname : ¬ name = "") :
    hostBinDirOf d name = d ++ ("/deno-installed-apps/" ++ sanitizeFileName name) := by
  unfold hostBinDirOf
  rw [appsPathOf_eq hd,
    join2_of_ne (append_ne_empty_right _ (by decide)) (sanitizeFileName_ne_empty hname)]
  simp only [String.append_assoc]
  exact congrArg (fun x => d ++ x)
    (str_glue "/deno-installed-apps" "/" "/deno-installed-apps/" (by decide) _)

theorem hostBinDirOf_ne_empty {d name : String} (hd : ¬ d = "") (hname : ¬ name = "") :
    ¬ hostBinDirOf d name = "" := by
  rw [hostBinDirOf_eq hd hname]
  exact append_ne_empty_right _ (append_ne_empty_left _ (by decide))

theorem installedExecPath_eq {d name : String} (hd : ¬ d = "") (hname : ¬ name = "") :
    installedExecPath d name =
      d ++ ("/deno-installed-apps/" ++ (sanitizeFileName name ++ ("/" ++ sanitizeFileName name))) := by
  unfold installedExecPath
  rw [hostBinDirOf_eq hd hname,
    join2_of_ne (by rw [← hostBinDirOf_eq hd hname]; exact hostBinDirOf_ne_empty hd hname)
      (sanitizeFileName_ne_empty hname)]
  simp only [String.append_assoc]

theorem installedMetaPath_eq {d name : String} (hd : ¬ d = "") (hname : ¬ name = "") :
    installedMetaPath d name =
      d ++ ("/deno-installed-apps/" ++ (sanitizeFileName name ++ ("/" ++ "metadata.json"))) := by
  unfold installedMetaPath
  rw [hostBinDirOf_eq hd hname,
    join2_of_ne (by rw [← hostBinDirOf_eq hd hname]; exact hostBinDirOf_ne_empty hd hname)
      (by decide)]
  simp only [String.append_assoc]

theorem desktopPathOfId_eq {d : String} (idv : String) (hd : ¬ d = "") :
    desktopPathOfId d idv = d ++ ("/applications/" ++ (idv ++ ".desktop")) := by
  unfold desktopPathOfId
  rw [applicationsDirOf_eq hd,
    join2_of_ne (append_ne_empty_right _ (by decide)) (append_ne_empty_right _ (by decide))]
  simp only [String.append_assoc]
  exact congrArg (fun x => d ++ x)
    (str_glue "/applications" "/" "/applications/" (by decide) _)

theorem desktopPathOfName_eq {d name : String} (hd : ¬ d = "") :
    desktopPathOfName d name = d ++ ("/applications/" ++ (sanitizeFileName name ++ ".desktop")) := by
  unfold desktopPathOfName
  rw [applicationsDirOf_eq hd,
    join2_of_ne (append_ne_empty_right _ (by decide)) (append_ne_empty_right _ (by decide))]
  simp only [String.append_assoc]
  exact congrArg (fun x => d ++ x)
    (str_glue "/applications" "/" "/applications/" (by decide) _)

theorem installedIconPathOfId_eq {d : String} (idv ext : String) (hd : ¬ d = "")
    (hne : ¬ idv ++ ext = "") :
    installedIconPathOfId d idv ext =
      d ++ ("/icons/hicolor/scalable/apps/" ++ (idv ++ ext)) := by
  unfold installedIconPathOfId
  rw [iconsAppsDirOf_eq hd, join2_of_ne (append_ne_empty_right _ (by decide)) hne]
  simp only [String.append_assoc]
  exact congrArg (fun x => d ++ x)
    (str_glue "/icons/hicolor/scalable/apps" "/" "/icons/hicolor/scalable/apps/" (by decide) _)

theorem installedIconPathNoId_eq {d name icon : String} (hd : ¬ d = "") (hname : ¬ name = "")
    (hicon : ¬ icon = "") :
    installedIconPathNoId d name icon =
      d ++ ("/deno-installed-apps/" ++ (sanitizeFileName name ++ ("/" ++ icon))) := by
  unfold installedIconPathNoId
  rw [hostBinDirOf_eq hd hname,
    join2_of_ne (by rw [← hostBinDirOf_eq hd hname]; exact hostBinDirOf_ne_empty hd hname) hicon]
  simp only [String.append_assoc]

theorem ne_app_of_len (p u q : String) (h : ¬ p.length + u.length = q.length) : ¬ p ++ u = q := by
  intro he
  have hl := congrArg String.length he
  rw [String.length_append] at hl
  exact h hl

theorem readFile_cons (k : String) (v : FileContent) (files : List (String × FileContent))
    (dirs : List String) (p : String) :
    FS.readFile ⟨(k, v) :: files, dirs⟩ p =
      (if p = k then some v else FS.readFile ⟨files, dirs⟩ p) :=
  readFile_writeFile ⟨files, dirs⟩ k v p

theorem hasDir_cons (files : List (String × FileContent)) (a : String) (l : List String)
    (p : String) :
    FS.hasDir ⟨files, a :: l⟩ p = (if p = a then true else FS.hasDir ⟨files, l⟩ p) := by
  unfold FS.hasDir
  show (a :: l).contains p = _
  rw [List.contains_cons]
  by_cases hp : p = a
  · rw [if_pos hp, beq_iff_eq.mpr hp, Bool.true_or]
  · rw [if_neg hp, beq_eq_false_iff_ne.mpr hp, Bool.false_or]

/-! ### Folding lemmas: the joined paths occurring inside `installAppCore`
are the named path helpers (definitional equalities). -/

theorem hostBinDirOf_def (d n : String) :
    join2 (appsPathOf d) (sanitizeFileName n) = hostBinDirOf d n := rfl

theorem installedExecPath_def (d n : String) :
    join2 (hostBinDirOf d n) (sanitizeFileName n) = installedExecPath d n := rfl

theorem installedMetaPath_def (d n : String) :
    join2 (hostBinDirOf d n) "metadata.json" = installedMetaPath d n := rfl

theorem desktopPathOfId_def (d idv : String) :
    join2 (applicationsDirOf d) (idv ++ ".desktop") = desktopPathOfId d idv := rfl

theorem desktopPathOfName_def (d n : String) :
    join2 (applicationsDirOf d) (sanitizeFileName n ++ ".desktop") = desktopPathOfName d n := rfl

theorem installedIconPathOfId_def (d idv ext : String) :
    join2 (iconsAppsDirOf d) (idv ++ ext) = installedIconPathOfId d idv ext := rfl

theorem installedIconPathNoId_def (d n icon : String) :
    join2 (hostBinDirOf d n) icon = installedIconPathNoId d n icon := rfl

theorem iconSrcPath_def (appDir icon : String) :
    join2 (join2 appDir "assets") icon = iconSrcPath appDir icon := rfl

/-! ### Pairwise distinctness of the installer's paths -/

theorem ne_hostBinDir_appsPath {d n : String} (hd : ¬ d = "") (hn : ¬ n = "") :
    ¬ hostBinDirOf d n = appsPathOf d := by
  rw [hostBinDirOf_eq hd hn, appsPathOf_eq hd]
  apply str_app_right_ne
  apply ne_app_of_len
  have l1 : ("/deno-installed-apps/" : String).length = 21 := rfl
  have l2 : ("/deno-installed-apps" : String).length = 20 := rfl
  omega

theorem ne_exec_hostBinDir {d n : String} (hd : ¬ d = "") (hn : ¬ n = "") :
    ¬ installedExecPath d n = hostBinDirOf d n := by
  rw [installedExecPath_eq hd hn, hostBinDirOf_eq hd hn]
  apply str_app_right_ne
  apply str_app_right_ne
  apply ne_app_of_len
  have l1 : ("/" : String).length = 1 := rfl
  rw [String.length_append]
  omega

theorem ne_exec_appsPath {d n : String} (hd : ¬ d = "") (hn : ¬ n = "") :
    ¬ installedExecPath d n = appsPathOf d := by
  rw [installedExecPath_eq hd hn, appsPathOf_eq hd]
  apply str_app_right_ne
  apply ne_app_of_len
  have l1 : ("/deno-installed-apps/" : String).length = 21 := rfl
  have l2 : ("/deno-installed-apps" : String).length = 20 := rfl
  omega

theorem ne_meta_hostBinDir {d n : String} (hd : ¬ d = "") (hn : ¬ n = "") :
    ¬ installedMetaPath d n = hostBinDirOf d n := by
  rw [installedMetaPath_eq hd hn, hostBinDirOf_eq hd hn]
  apply str_app_right_ne
  apply str_app_right_ne
  apply ne_app_of_len
  have l1 : ("/" ++ "metadata.json" : String).length = 14 := rfl
  omega

theorem ne_meta_appsPath {d n : String} (hd : ¬ d = "") (hn : ¬ n = "") :
    ¬ installedMetaPath d n = appsPathOf d := by
  rw [installedMetaPath_eq hd hn, appsPathOf_eq hd]
  apply str_app_right_ne
  apply ne_app_of_len
  have l1 : ("/deno-installed-apps/" : String).length = 21 := rfl
  have l2 : ("/deno-installed-apps" : String).length = 20 := rfl
  omega

theorem ne_exec_meta {d n : String} (hd : ¬ d = "") (hn : ¬ n = "") :
    ¬ installedExecPath d n = installedMetaPath d n := by
  rw [installedExecPath_eq hd hn, installedMetaPath_eq hd hn]
  apply str_app_right_ne
  apply str_app_right_ne
  apply str_app_right_ne
  apply str_app_right_ne
  exact sanitizeFileName_ne_of_bad (t := "metadata.json") (c := '.') (by decide) (by decide) n

theorem ne_iconId_hostBinDir {d n idv ext : String} (hd : ¬ d = "") (hn : ¬ n = "")
    (hne : ¬ idv ++ ext = "") :
    ¬ installedIconPathOfId d idv ext = hostBinDirOf d n := by
  rw [installedIconPathOfId_eq idv ext hd hne, hostBinDirOf_eq hd hn]
  apply str_app_right_ne
  exact str_app_app_take_ne _ _ _ _ 4 (by decide) (by decide) (by decide)

theorem ne_iconId_appsPath {d idv ext : String} (hd : ¬ d = "") (hne : ¬ idv ++ ext = "") :
    ¬ installedIconPathOfId d idv ext = appsPathOf d := by
  rw [installedIconPathOfId_eq idv ext hd hne, appsPathOf_eq hd]
  apply str_app_right_ne
  exact str_app_ne_take _ _ _ 4 (by decide) (by decide) (by decide)

theorem ne_iconId_desktopId {d idv ext idv2 : String} (hd : ¬ d = "")
    (hne : ¬ idv ++ ext = "") :
    ¬ installedIconPathOfId d idv ext = desktopPathOfId d idv2 := by
  rw [installedIconPathOfId_eq idv ext hd hne, desktopPathOfId_eq idv2 hd]
  apply str_app_right_ne
  exact str_app_app_take_ne _ _ _ _ 4 (by decide) (by decide) (by decide)

theorem ne_applications_hostBinDir {d n : String} (hd : ¬ d = "") (hn : ¬ n = "") :
    ¬ applicationsDirOf d = hostBinDirOf d n := by
  rw [applicationsDirOf_eq hd, hostBinDirOf_eq hd hn]
  apply str_app_right_ne
  exact str_ne_app_take _ _ _ 4 (by decide) (by decide) (by decide)

theorem ne_applications_appsPath {d : String} (hd : ¬ d = "") :
    ¬ applicationsDirOf d = appsPathOf d := by
  rw [applicationsDirOf_eq hd, appsPathOf_eq hd]
  apply str_app_right_ne
  decide

theorem ne_desktopId_applications {d idv : String} (hd : ¬ d = "") :
    ¬ desktopPathOfId d idv = applicationsDirOf d := by
  rw [desktopPathOfId_eq idv hd, applicationsDirOf_eq hd]
  apply str_app_right_ne
  apply ne_app_of_len
  have l1 : ("/applications/" : String).length = 14 := rfl
  have l2 : ("/applications" : String).length = 13 := rfl
  omega

theorem ne_desktopId_hostBinDir {d n idv : String} (hd : ¬ d = "") (hn : ¬ n = "") :
    ¬ desktopPathOfId d idv = hostBinDirOf d n := by
  rw [desktopPathOfId_eq idv hd, hostBinDirOf_eq hd hn]
  apply str_app_right_ne
  exact str_app_app_take_ne _ _ _ _ 4 (by decide) (by decide) (by decide)

theorem ne_desktopId_appsPath {d idv : String} (hd : ¬ d = "") :
    ¬ desktopPathOfId d idv = appsPathOf d := by
  rw [desktopPathOfId_eq idv hd, appsPathOf_eq hd]
  apply str_app_right_ne
  exact str_app_ne_take _ _ _ 4 (by decide) (by decide) (by decide)

theorem ne_meta_desktopId {d n idv : String} (hd : ¬ d = "") (hn : ¬ n = "") :
    ¬ installedMetaPath d n = desktopPathOfId d idv := by
  rw [installedMetaPath_eq hd hn, desktopPathOfId_eq idv hd]
  apply str_app_right_ne
  exact str_app_app_take_ne _ _ _ _ 4 (by decide) (by decide) (by decide)

theorem ne_meta_iconId {d n idv ext : String} (hd : ¬ d = "") (hn : ¬ n = "")
    (hne : ¬ idv ++ ext = "") :
    ¬ installedMetaPath d n = installedIconPathOfId d idv ext := by
  rw [installedMetaPath_eq hd hn, installedIconPathOfId_eq idv ext hd hne]
  apply str_app_right_ne
  exact str_app_app_take_ne _ _ _ _ 4 (by decide) (by decide) (by decide)

theorem ne_exec_desktopId {d n idv : String} (hd : ¬ d = "") (hn : ¬ n = "") :
    ¬ installedExecPath d n = desktopPathOfId d idv := by
  rw [installedExecPath_eq hd hn, desktopPathOfId_eq idv hd]
  apply str_app_right_ne
  exact str_app_app_take_ne _ _ _ _ 4 (by decide) (by decide) (by decide)

theorem ne_exec_iconId {d n idv ext : String} (hd : ¬ d = "") (hn : ¬ n = "")
    (hne : ¬ idv ++ ext = "") :
    ¬ installedExecPath d n = installedIconPathOfId d idv ext := by
  rw [installedExecPath_eq hd hn, installedIconPathOfId_eq idv ext hd hne]
  apply str_app_right_ne
  exact str_app_app_take_ne _ _ _ _ 4 (by decide) (by decide) (by decide)

theorem ne_iconNoId_hostBinDir {d n icon : String} (hd : ¬ d = "") (hn : ¬ n = "")
    (hicon : ¬ icon = "") :
    ¬ installedIconPathNoId d n icon = hostBinDirOf d n := by
  rw [installedIconPathNoId_eq hd hn hicon, hostBinDirOf_eq hd hn]
  apply str_app_right_ne
  apply str_app_right_ne
  apply ne_app_of_len
  have l1 : ("/" : String).length = 1 := rfl
  rw [String.length_append]
  omega

theorem ne_iconNoId_appsPath {d n icon : String} (hd : ¬ d = "") (hn : ¬ n = "")
    (hicon : ¬ icon = "") :
    ¬ installedIconPathNoId d n icon = appsPathOf d := by
  rw [installedIconPathNoId_eq hd hn hicon, appsPathOf_eq hd]
  apply str_app_right_ne
  apply ne_app_of_len
  have l1 : ("/deno-installed-apps/" : String).length = 21 := rfl
  have l2 : ("/deno-installed-apps" : String).length = 20 := rfl
  omega

theorem ne_desktopName_applications {d n : String} (hd : ¬ d = "") :
    ¬ desktopPathOfName d n = applicationsDirOf d := by
  rw [desktopPathOfName_eq hd, applicationsDirOf_eq hd]
  apply str_app_right_ne
  apply ne_app_of_len
  have l1 : ("/applications/" : String).length = 14 := rfl
  have l2 : ("/applications" : String).length = 13 := rfl
  omega

theorem ne_desktopName_hostBinDir {d n n2 : String} (hd : ¬ d = "") (hn2 : ¬ n2 = "") :
    ¬ desktopPathOfName d n = hostBinDirOf d n2 := by
  rw [desktopPathOfName_eq hd, hostBinDirOf_eq hd hn2]
  apply str_app_right_ne
  exact str_app_app_take_ne _ _ _ _ 4 (by decide) (by decide) (by decide)

theorem ne_desktopName_appsPath {d n : String} (hd : ¬ d = "") :
    ¬ desktopPathOfName d n = appsPathOf d := by
  rw [desktopPathOfName_eq hd, appsPathOf_eq hd]
  apply str_app_right_ne
  exact str_app_ne_take _ _ _ 4 (by decide) (by decide) (by decide)

theorem ne_iconNoId_desktopName {d n icon n2 : String} (hd : ¬ d = "") (hn : ¬ n = "")
    (hicon : ¬ icon = "") :
    ¬ installedIconPathNoId d n icon = desktopPathOfName d n2 := by
  rw [installedIconPathNoId_eq hd hn hicon, desktopPathOfName_eq hd]
  apply str_app_right_ne
  exact str_app_app_take_ne _ _ _ _ 4 (by decide) (by decide) (by decide)

theorem ne_meta_desktopName {d n n2 : String} (hd : ¬ d = "") (hn : ¬ n = "") :
    ¬ installedMetaPath d n = desktopPathOfName d n2 := by
  rw [installedMetaPath_eq hd hn, desktopPathOfName_eq hd]
  apply str_app_right_ne
  exact str_app_app_take_ne _ _ _ _ 4 (by decide) (by decide) (by decide)

theorem ne_meta_iconNoId {d n icon : String} (hd : ¬ d = "") (hn : ¬ n = "")
    (hicon : ¬ icon = "") (hmeta : ¬ icon = "metadata.json") :
    ¬ installedMetaPath d n = installedIconPathNoId d n icon := by
  rw [installedMetaPath_eq hd hn, installedIconPathNoId_eq hd hn hicon]
  apply str_app_right_ne
  apply str_app_right_ne
  apply str_app_right_ne
  apply str_app_right_ne
  exact fun he => hmeta he.symm

theorem readFile_dirs_irrel (fs : FS) (dirs : List String) (p : String) :
    FS.readFile ⟨fs.files, dirs⟩ p = fs.readFile p := rfl

theorem hasDir_mk (fs : FS) (p : String) :
    FS.hasDir ⟨fs.files, fs.dirs⟩ p = fs.hasDir p := rfl

theorem hasDir_dirs_irrel (files : List (String × FileContent)) (fs : FS) (p : String) :
    FS.hasDir ⟨files, fs.dirs⟩ p = fs.hasDir p := rfl

theorem readFile_mk_filter (fs : FS) (q : String) (dirs : List String) (p : String) :
    FS.readFile ⟨fs.files.filter (fun kv => !(kv.1 = q)), dirs⟩ p =
      (if p = q then none else fs.readFile p) :=
  readFile_removeFileEntries fs q p

theorem installAppCore_withId_run
    (dataDir executablePath appDir : String) (m : InstallMetadata) (idv : String) (fs : FS)
    (ec ic : FileContent)
    (hdd : ¬ dataDir = "") (hname : ¬ m.name = "")
    (hid : m.id = some idv) (hidv : ¬ idv = "")
    (hext : extname m.icon = ".svg")
    (hex : fs.readFile executablePath = some ec)
    (hic : fs.readFile (iconSrcPath appDir m.icon) = some ic)
    (hsrc1 : ¬ iconSrcPath appDir m.icon = executablePath)
    (hsrc2 : ¬ iconSrcPath appDir m.icon = installedExecPath dataDir m.name)
    (hsrc3 : ¬ iconSrcPath appDir m.icon = installedMetaPath dataDir m.name)
    (hicons : fs.hasDir (iconsAppsDirOf dataDir) = true)
    (hd1 : fs.hasDir (appsPathOf dataDir) = false)
    (hd2 : fs.hasDir (hostBinDirOf dataDir m.name) = false)
    (hd3 : fs.hasDir (installedExecPath dataDir m.name) = false)
    (hd4 : fs.hasDir (installedMetaPath dataDir m.name) = false)
    (hd5 : fs.hasDir (installedIconPathOfId dataDir idv ".svg") = false)
    (hd6 : fs.hasDir (applicationsDirOf dataDir) = false)
    (hd7 : fs.hasDir (desktopPathOfId dataDir idv) = false) :
    installAppCore dataDir executablePath m appDir fs =
      (⟨(desktopPathOfId dataDir idv,
          .text (desktopEntryText m.name (installedExecPath dataDir m.name) idv)) ::
        (installedIconPathOfId dataDir idv ".svg", ic) ::
        (installedMetaPath dataDir m.name, .jmeta m) ::
        (installedExecPath dataDir m.name, ec) ::
        fs.files.filter (fun kv => !(kv.1 = executablePath)),
        applicationsDirOf dataDir :: hostBinDirOf dataDir m.name ::
          appsPathOf dataDir :: fs.dirs⟩,
       .ok ()) := by
  have hne : ¬ idv ++ ".svg" = "" := append_ne_empty_right _ (by decide)
  simp only [installAppCore, FS.renameIn, FS.writeFileIn, FS.copyFileIn, FS.ensureDir,
    FS.removeFileEntries, FS.writeFile,
    hostBinDirOf_def, installedExecPath_def, installedMetaPath_def, desktopPathOfId_def,
    installedIconPathOfId_def, iconSrcPath_def,
    hid, hext, jsTruthy, Option.getD_some,
    hasDir_cons, hasDir_mk, hasDir_dirs_irrel, readFile_cons, readFile_dirs_irrel, readFile_mk_filter,
    hex, hic,
    hd1, hd2, hd3, hd4, hd5, hd6, hd7, hicons,
    hsrc1, hsrc2, hsrc3, hidv,
    ne_hostBinDir_appsPath hdd hname,
    ne_exec_hostBinDir hdd hname, ne_exec_appsPath hdd hname,
    ne_meta_hostBinDir hdd hname, ne_meta_appsPath hdd hname,
    ne_exec_meta hdd hname,
    ne_iconId_hostBinDir hdd hname hne, ne_iconId_appsPath hdd hne,
    ne_applications_hostBinDir hdd hname, ne_applications_appsPath hdd,
    ne_desktopId_applications hdd, ne_desktopId_hostBinDir hdd hname,
    ne_desktopId_appsPath hdd,
    Bool.false_eq_true, Bool.true_eq_false, ite_true, ite_false, if_true, if_false,
    eq_self_iff_true, decide_True, decide_False, decide_eq_true_eq,
    Bool.not_true, Bool.not_false, ite_self, reduceIte]

theorem installAppCore_noId_run
    (dataDir executablePath appDir : String) (m : InstallMetadata) (fs : FS)
    (ec ic : FileContent)
    (hdd : ¬ dataDir = "") (hname : ¬ m.name = "")
    (hid : jsTruthy m.id = false)
    (hicon : ¬ m.icon = "")
    (hex : fs.readFile executablePath = some ec)
    (hic : fs.readFile (iconSrcPath appDir m.icon) = some ic)
    (hsrc1 : ¬ iconSrcPath appDir m.icon = executablePath)
    (hsrc2 : ¬ iconSrcPath appDir m.icon = installedExecPath dataDir m.name)
    (hsrc3 : ¬ iconSrcPath appDir m.icon = installedMetaPath dataDir m.name)
    (hd1 : fs.hasDir (appsPathOf dataDir) = false)
    (hd2 : fs.hasDir (hostBinDirOf dataDir m.name) = false)
    (hd3 : fs.hasDir (installedExecPath dataDir m.name) = false)
    (hd4 : fs.hasDir (installedMetaPath dataDir m.name) = false)
    (hd5 : fs.hasDir (installedIconPathNoId dataDir m.name m.icon) = false)
    (hd6 : fs.hasDir (applicationsDirOf dataDir) = false)
    (hd7 : fs.hasDir (desktopPathOfName dataDir m.name) = false) :
    installAppCore dataDir executablePath m appDir fs =
      (⟨(desktopPathOfName dataDir m.name,
          .text (desktopEntryText m.name (installedExecPath dataDir m.name)
            (installedIconPathNoId dataDir m.name m.icon))) ::
        (installedIconPathNoId dataDir m.name m.icon, ic) ::
        (installedMetaPath dataDir m.name, .jmeta m) ::
        (installedExecPath dataDir m.name, ec) ::
        fs.files.filter (fun kv => !(kv.1 = executablePath)),
        applicationsDirOf dataDir :: hostBinDirOf dataDir m.name ::
          appsPathOf dataDir :: fs.dirs⟩,
       .ok ()) := by
  simp only [installAppCore, FS.renameIn, FS.writeFileIn, FS.copyFileIn, FS.ensureDir,
    FS.removeFileEntries, FS.writeFile,
    hostBinDirOf_def, installedExecPath_def, installedMetaPath_def, desktopPathOfName_def,
    iconSrcPath_def,
    hid,
    hasDir_cons, hasDir_mk, hasDir_dirs_irrel, readFile_cons, readFile_dirs_irrel,
    readFile_mk_filter,
    hex, hic,
    hd1, hd2, hd3, hd4, hd6, hd7,
    hsrc1, hsrc2, hsrc3,
    ne_hostBinDir_appsPath hdd hname,
    ne_exec_hostBinDir hdd hname, ne_exec_appsPath hdd hname,
    ne_meta_hostBinDir hdd hname, ne_meta_appsPath hdd hname,
    ne_exec_meta hdd hname,
    ne_applications_hostBinDir hdd hname, ne_applications_appsPath hdd,
    ne_desktopName_applications hdd, ne_desktopName_hostBinDir hdd hname,
    ne_desktopName_appsPath hdd,
    Bool.false_eq_true, Bool.true_eq_false, ite_true, ite_false, if_true, if_false,
    eq_self_iff_true, decide_True, decide_False, decide_eq_true_eq,
    Bool.not_true, Bool.not_false, ite_self, reduceIte]
  simp only [installedIconPathNoId_def]
  simp only [hd5,
    ne_iconNoId_hostBinDir hdd hname hicon, ne_iconNoId_appsPath hdd hname hicon,
    ne_applications_hostBinDir hdd hname, ne_applications_appsPath hdd,
    ne_desktopName_applications hdd, ne_desktopName_hostBinDir hdd hname,
    ne_desktopName_appsPath hdd, hd6, hd7,
    hasDir_cons, hasDir_mk, hasDir_dirs_irrel, FS.ensureDir, FS.writeFileIn, FS.writeFile,
    Bool.false_eq_true, Bool.true_eq_false, ite_true, ite_false, if_true, if_false,
    eq_self_iff_true, decide_True, decide_False, decide_eq_true_eq,
    Bool.not_true, Bool.not_false, ite_self, reduceIte]

theorem installAppCore_withId_badExt_run
    (dataDir executablePath appDir : String) (m : InstallMetadata) (idv : String) (fs : FS)
    (ec : FileContent)
    (hdd : ¬ dataDir = "") (hname : ¬ m.name = "")
    (hid : m.id = some idv) (hidv : ¬ idv = "")
    (hext : ¬ extname m.icon = ".svg")
    (hex : fs.readFile executablePath = some ec)
    (hd1 : fs.hasDir (appsPathOf dataDir) = false)
    (hd2 : fs.hasDir (hostBinDirOf dataDir m.name) = false)
    (hd3 : fs.hasDir (installedExecPath dataDir m.name) = false)
    (hd4 : fs.hasDir (installedMetaPath dataDir m.name) = false) :
    installAppCore dataDir executablePath m appDir fs =
      (⟨(installedMetaPath dataDir m.name, .jmeta m) ::
        (installedExecPath dataDir m.name, ec) ::
        fs.files.filter (fun kv => !(kv.1 = executablePath)),
        hostBinDirOf dataDir m.name :: appsPathOf dataDir :: fs.dirs⟩,
       .error .unsupportedIconFormat) := by
  simp only [installAppCore, FS.renameIn, FS.writeFileIn, FS.ensureDir,
    FS.removeFileEntries, FS.writeFile,
    hostBinDirOf_def, installedExecPath_def, installedMetaPath_def,
    hid, hext, jsTruthy, hidv,
    hasDir_cons, hasDir_mk, hasDir_dirs_irrel, readFile_cons, readFile_dirs_irrel,
    hex,
    hd1, hd2, hd3, hd4,
    ne_hostBinDir_appsPath hdd hname,
    ne_exec_hostBinDir hdd hname, ne_exec_appsPath hdd hname,
    ne_meta_hostBinDir hdd hname, ne_meta_appsPath hdd hname,
    ne_exec_meta hdd hname,
    Bool.false_eq_true, Bool.true_eq_false, ite_true, ite_false, if_true, if_false,
    eq_self_iff_true, decide_True, decide_False, decide_eq_true_eq,
    Bool.not_true, Bool.not_false, ite_self, reduceIte]

theorem takeWhile_append_stop {p : Char → Bool} {l : List Char} (h : ∀ c ∈ l, p c = true)
    {c' : Char} (hc : p c' = false) (t : List Char) : (l ++ c' :: t).takeWhile p = l := by
  induction l with
  | nil => simp [List.takeWhile_cons, hc]
  | cons a as ih =>
    simp only [List.cons_append, List.takeWhile_cons, h a (by simp)]
    simp [ih (fun c hcc => h c (by simp [hcc]))]

theorem findNameCapture_desktopEntryText (name ex ic : String)
    (h : ∀ c ∈ name.data, isJsLineTerminator c = false) :
    findNameCapture (desktopEntryText name ex ic).data = some name.data := by
  unfold desktopEntryText
  have hA : ("\n[Desktop Entry]\nName=" : String).data =
    ['\n', '[', 'D', 'e', 's', 'k', 't', 'o', 'p', ' ', 'E', 'n', 't', 'r', 'y', ']', '\n',
     'N', 'a', 'm', 'e', '='] := rfl
  have hB : ("\nExec=" : String).data = ['\n', 'E', 'x', 'e', 'c', '='] := rfl
  simp only [str_data_append, List.append_assoc, hA, hB, List.cons_append]
  simp only [findNameCapture, List.nil_append]
  rw [takeWhile_append_stop (fun c hc => by simp [h c hc]) (by decide)]

theorem str_ne_empty_data {s : String} (h : ¬ s = "") : s.data ≠ [] := by
  intro he
  exact h (str_data_inj (by rw [he]))

theorem isPrefixOf_append_self (l t : List Char) : l.isPrefixOf (l ++ t) = true :=
  List.isPrefixOf_iff_prefix.mpr (List.prefix_append l t)

theorem iconSrcPath_eq {appDir icon : String} (ha : ¬ appDir = "") (hi : ¬ icon = "") :
    iconSrcPath appDir icon = appDir ++ ("/assets/" ++ icon) := by
  unfold iconSrcPath
  rw [join2_of_ne ha (by decide), join2_of_ne (append_ne_empty_right _ (by decide)) hi]
  simp only [String.append_assoc]
  exact congrArg (fun x => appDir ++ x)
    (str_glue "/assets" "/" "/assets/" (by decide) _)

theorem ne_hostBinDir_iconsDir {d n : String} (hd : ¬ d = "") (hn : ¬ n = "") :
    ¬ hostBinDirOf d n = iconsAppsDirOf d := by
  rw [hostBinDirOf_eq hd hn, iconsAppsDirOf_eq hd]
  apply str_app_right_ne
  exact str_app_ne_take _ _ _ 3 (by decide) (by decide) (by decide)

theorem ne_exec_iconsDir {d n : String} (hd : ¬ d = "") (hn : ¬ n = "") :
    ¬ installedExecPath d n = iconsAppsDirOf d := by
  rw [installedExecPath_eq hd hn, iconsAppsDirOf_eq hd]
  apply str_app_right_ne
  exact str_app_ne_take _ _ _ 3 (by decide) (by decide) (by decide)

theorem ne_meta_iconsDir {d n : String} (hd : ¬ d = "") (hn : ¬ n = "") :
    ¬ installedMetaPath d n = iconsAppsDirOf d := by
  rw [installedMetaPath_eq hd hn, iconsAppsDirOf_eq hd]
  apply str_app_right_ne
  exact str_app_ne_take _ _ _ 3 (by decide) (by decide) (by decide)

theorem ne_desktopId_iconsDir {d idv : String} (hd : ¬ d = "") :
    ¬ desktopPathOfId d idv = iconsAppsDirOf d := by
  rw [desktopPathOfId_eq idv hd, iconsAppsDirOf_eq hd]
  apply str_app_right_ne
  exact str_app_ne_take _ _ _ 3 (by decide) (by decide) (by decide)

theorem ne_desktopName_iconsDir {d n : String} (hd : ¬ d = "") :
    ¬ desktopPathOfName d n = iconsAppsDirOf d := by
  rw [desktopPathOfName_eq hd, iconsAppsDirOf_eq hd]
  apply str_app_right_ne
  exact str_app_ne_take _ _ _ 3 (by decide) (by decide) (by decide)

theorem ne_iconNoId_iconsDir {d n icon : String} (hd : ¬ d = "") (hn : ¬ n = "")
    (hicon : ¬ icon = "") :
    ¬ installedIconPathNoId d n icon = iconsAppsDirOf d := by
  rw [installedIconPathNoId_eq hd hn hicon, iconsAppsDirOf_eq hd]
  apply str_app_right_ne
  exact str_app_ne_take _ _ _ 3 (by decide) (by decide) (by decide)

theorem ne_iconId_iconsDir {d idv ext : String} (hd : ¬ d = "") (hne : ¬ idv ++ ext = "") :
    ¬ installedIconPathOfId d idv ext = iconsAppsDirOf d := by
  rw [installedIconPathOfId_eq idv ext hd hne, iconsAppsDirOf_eq hd]
  apply str_app_right_ne
  apply ne_app_of_len
  have l1 : ("/icons/hicolor/scalable/apps/" : String).length = 29 := rfl
  have l2 : ("/icons/hicolor/scalable/apps" : String).length = 28 := rfl
  omega

theorem prefix_data_hostBinDir {d n : String} (hd : ¬ d = "") (hn : ¬ n = "") :
    (hostBinDirOf d n).data =
      (appsPathOf d ++ "/").data ++ (sanitizeFileName n).data := by
  rw [hostBinDirOf_eq hd hn, appsPathOf_eq hd]
  simp only [str_data_append, List.append_assoc]
  congr 1

theorem length_appsPath_succ {d : String} (hd : ¬ d = "") :
    (appsPathOf d ++ "/").data.length = (appsPathOf d).length + 1 := by
  show (appsPathOf d ++ "/").length = _
  rw [String.length_append]
  have h1 : ("/" : String).length = 1 := rfl
  omega

theorem drop_hostBinDir {d n : String} (hd : ¬ d = "") (hn : ¬ n = "") :
    (hostBinDirOf d n).data.drop ((appsPathOf d).length + 1) = (sanitizeFileName n).data := by
  rw [prefix_data_hostBinDir hd hn, ← length_appsPath_succ hd]
  exact List.drop_left _ _

theorem isDirectChildPath_hostBinDir {d n : String} (hd : ¬ d = "") (hn : ¬ n = "") :
    isDirectChildPath (appsPathOf d) (hostBinDirOf d n) = true := by
  unfold isDirectChildPath
  rw [drop_hostBinDir hd hn]
  rw [prefix_data_hostBinDir hd hn]
  rw [isPrefixOf_append_self]
  have h1 : decide ((sanitizeFileName n).data = []) = false := by
    simp [str_ne_empty_data (sanitizeFileName_ne_empty hn)]
  rw [sanitizeFileName_no_slash]
  simp [str_ne_empty_data (sanitizeFileName_ne_empty hn)]

theorem str_mk_data (s : String) : (⟨s.data⟩ : String) = s := rfl

theorem iconSrc_ne_bin {icon : String} (hicon : ¬ icon = "") :
    ¬ iconSrcPath "/proj" icon = "bin" := by
  rw [iconSrcPath_eq (by decide) hicon]
  exact str_app_ne_take _ _ _ 1 (by decide) (by decide) (by decide)

theorem iconSrc_ne_exec {icon n : String} (hicon : ¬ icon = "") (hn : ¬ n = "") :
    ¬ iconSrcPath "/proj" icon = installedExecPath "/data" n := by
  rw [iconSrcPath_eq (by decide) hicon, installedExecPath_eq (by decide) hn]
  exact str_app_app_take_ne _ _ _ _ 3 (by decide) (by decide) (by decide)

theorem iconSrc_ne_meta {icon n : String} (hicon : ¬ icon = "") (hn : ¬ n = "") :
    ¬ iconSrcPath "/proj" icon = installedMetaPath "/data" n := by
  rw [iconSrcPath_eq (by decide) hicon, installedMetaPath_eq (by decide) hn]
  exact str_app_app_take_ne _ _ _ _ 3 (by decide) (by decide) (by decide)

theorem initFS_read_bin (m : InstallMetadata) : (initFS m).readFile "bin" = some (.blob 0) := by
  unfold initFS
  rw [readFile_cons, if_pos rfl]

theorem initFS_read_iconSrc (m : InstallMetadata) (hicon : ¬ m.icon = "") :
    (initFS m).readFile (iconSrcPath "/proj" m.icon) = some (.blob 1) := by
  unfold initFS
  rw [iconSrcPath_def]
  rw [readFile_cons, if_neg (iconSrc_ne_bin hicon), readFile_cons, if_pos rfl]

theorem initFS_hasDir_false (m : InstallMetadata) (p : String)
    (hp : ¬ p = "/data/icons/hicolor/scalable/apps") : (initFS m).hasDir p = false := by
  unfold initFS
  rw [hasDir_cons, if_neg hp]
  rfl

theorem initFS_hasDir_icons (m : InstallMetadata) :
    (initFS m).hasDir (iconsAppsDirOf "/data") = true := by
  unfold initFS
  rw [hasDir_cons, if_pos (by decide)]

theorem initFS_filter_bin (m : InstallMetadata) (hicon : ¬ m.icon = "") :
    (initFS m).files.filter (fun kv => !(kv.1 = "bin")) =
      [(join2 (join2 "/proj" "assets") m.icon, .blob 1)] := by
  unfold initFS
  rw [List.filter_cons, List.filter_cons]
  have h1 : (!(decide (("bin", (FileContent.blob 0)).1 = "bin"))) = false := by simp
  have h2 : (!(decide ((join2 (join2 "/proj" "assets") m.icon, (FileContent.blob 1)).1 = "bin"))) = true := by
    simp only [iconSrcPath_def]
    simp [iconSrc_ne_bin hicon]
  rw [h1, h2]
  rfl

theorem listAfterInstall_withId (m : InstallMetadata) (idv : String)
    (hname : ¬ m.name = "") (hidv : ¬ idv = "") (hmid : m.id = some idv)
    (htrim : jsTrim m.name = m.name)
    (hlt : ∀ c ∈ m.name.data, isJsLineTerminator c = false)
    (hicon : ¬ m.icon = "") (hmi : ¬ m.icon = "metadata.json") :
    listAppsCore "/data"
      ⟨[(desktopPathOfId "/data" idv,
          .text (desktopEntryText m.name (installedExecPath "/data" m.name) idv)),
        (installedIconPathOfId "/data" idv ".svg", .blob 1),
        (installedMetaPath "/data" m.name, .jmeta m),
        (installedExecPath "/data" m.name, .blob 0),
        (join2 (join2 "/proj" "assets") m.icon, .blob 1)],
        [applicationsDirOf "/data", hostBinDirOf "/data" m.name, appsPathOf "/data",
         "/data/icons/hicolor/scalable/apps"]⟩ =
      ⟨.listed [m.name], []⟩ := by
  have hd : ¬ ("/data" : String) = "" := by decide
  have hne : ¬ idv ++ ".svg" = "" := append_ne_empty_right _ (by decide)
  have hA : FS.hasDir
      ⟨[(desktopPathOfId "/data" idv,
          .text (desktopEntryText m.name (installedExecPath "/data" m.name) idv)),
        (installedIconPathOfId "/data" idv ".svg", .blob 1),
        (installedMetaPath "/data" m.name, .jmeta m),
        (installedExecPath "/data" m.name, .blob 0),
        (join2 (join2 "/proj" "assets") m.icon, .blob 1)],
        [applicationsDirOf "/data", hostBinDirOf "/data" m.name, appsPathOf "/data",
         "/data/icons/hicolor/scalable/apps"]⟩ (appsPathOf "/data") = true := by
    rw [hasDir_cons, if_neg (by decide), hasDir_cons,
      if_neg (fun he => ne_hostBinDir_appsPath hd hname he.symm), hasDir_cons, if_pos rfl]
  have hEn : entryNamesOf
      ⟨[(desktopPathOfId "/data" idv,
          .text (desktopEntryText m.name (installedExecPath "/data" m.name) idv)),
        (installedIconPathOfId "/data" idv ".svg", .blob 1),
        (installedMetaPath "/data" m.name, .jmeta m),
        (installedExecPath "/data" m.name, .blob 0),
        (join2 (join2 "/proj" "assets") m.icon, .blob 1)],
        [applicationsDirOf "/data", hostBinDirOf "/data" m.name, appsPathOf "/data",
         "/data/icons/hicolor/scalable/apps"]⟩ (appsPathOf "/data") =
      [sanitizeFileName m.name] := by
    unfold entryNamesOf
    show (List.filter _ [applicationsDirOf "/data", hostBinDirOf "/data" m.name,
      appsPathOf "/data", "/data/icons/hicolor/scalable/apps"]).map _ = _
    rw [List.filter_cons, List.filter_cons, List.filter_cons, List.filter_cons]
    rw [show isDirectChildPath (appsPathOf "/data") (applicationsDirOf "/data") = false by decide]
    rw [isDirectChildPath_hostBinDir (by decide) hname]
    rw [show isDirectChildPath (appsPathOf "/data") (appsPathOf "/data") = false by decide]
    rw [show isDirectChildPath (appsPathOf "/data")
      "/data/icons/hicolor/scalable/apps" = false by decide]
    simp only [Bool.false_eq_true, eq_self_iff_true, if_true, if_false, ite_true, ite_false,
      List.filter_nil, List.map_cons, List.map_nil]
    rw [drop_hostBinDir hd hname, str_mk_data]
  have hMeta : FS.readFile
      ⟨[(desktopPathOfId "/data" idv,
          .text (desktopEntryText m.name (installedExecPath "/data" m.name) idv)),
        (installedIconPathOfId "/data" idv ".svg", .blob 1),
        (installedMetaPath "/data" m.name, .jmeta m),
        (installedExecPath "/data" m.name, .blob 0),
        (join2 (join2 "/proj" "assets") m.icon, .blob 1)],
        [applicationsDirOf "/data", hostBinDirOf "/data" m.name, appsPathOf "/data",
         "/data/icons/hicolor/scalable/apps"]⟩ (installedMetaPath "/data" m.name) =
      some (.jmeta m) := by
    rw [readFile_cons, if_neg (ne_meta_desktopId hd hname), readFile_cons,
      if_neg (ne_meta_iconId hd hname hne), readFile_cons, if_pos rfl]
  have hDesk : FS.readFile
      ⟨[(desktopPathOfId "/data" idv,
          .text (desktopEntryText m.name (installedExecPath "/data" m.name) idv)),
        (installedIconPathOfId "/data" idv ".svg", .blob 1),
        (installedMetaPath "/data" m.name, .jmeta m),
        (installedExecPath "/data" m.name, .blob 0),
        (join2 (join2 "/proj" "assets") m.icon, .blob 1)],
        [applicationsDirOf "/data", hostBinDirOf "/data" m.name, appsPathOf "/data",
         "/data/icons/hicolor/scalable/apps"]⟩ (desktopPathOfId "/data" idv) =
      some (.text (desktopEntryText m.name (installedExecPath "/data" m.name) idv)) := by
    rw [readFile_cons, if_pos rfl]
  have hLE : listEntry
      ⟨[(desktopPathOfId "/data" idv,
          .text (desktopEntryText m.name (installedExecPath "/data" m.name) idv)),
        (installedIconPathOfId "/data" idv ".svg", .blob 1),
        (installedMetaPath "/data" m.name, .jmeta m),
        (installedExecPath "/data" m.name, .blob 0),
        (join2 (join2 "/proj" "assets") m.icon, .blob 1)],
        [applicationsDirOf "/data", hostBinDirOf "/data" m.name, appsPathOf "/data",
         "/data/icons/hicolor/scalable/apps"]⟩ "/data" (appsPathOf "/data")
      (sanitizeFileName m.name) = .ok (some m.name) := by
    simp only [listEntry, bind, Except.bind]
    rw [hostBinDirOf_def, installedMetaPath_def, hMeta]
    simp only [metadataIdOf, hmid]
    simp only [jsTruthy, hidv, decide_False, decide_True, Bool.not_false, Bool.not_true,
      decide_eq_true_eq, ite_true, if_true, Option.getD_some]
    rw [desktopPathOfId_def, hDesk]
    simp only [readTextContent]
    rw [findNameCapture_desktopEntryText _ _ _ hlt]
    simp only [Option.map_some']
    rw [str_mk_data, htrim]
  simp only [listAppsCore, FS.existsPath, hA, Bool.or_true, Bool.not_true, Bool.false_eq_true,
    if_false, ite_false, hEn, listLoop, hLE, jsTruthy, hname, decide_False, Bool.not_false,
    decide_eq_true_eq, ite_true, if_true, Option.getD_some, ite_self, reduceIte]
  simp [hname]

theorem listAfterInstall_noId (m : InstallMetadata)
    (hname : ¬ m.name = "") (hjs : jsTruthy m.id = false)
    (htrim : jsTrim m.name = m.name)
    (hlt : ∀ c ∈ m.name.data, isJsLineTerminator c = false)
    (hicon : ¬ m.icon = "") (hmi : ¬ m.icon = "metadata.json") :
    listAppsCore "/data"
      ⟨[(desktopPathOfName "/data" m.name,
          .text (desktopEntryText m.name (installedExecPath "/data" m.name)
            (installedIconPathNoId "/data" m.name m.icon))),
        (installedIconPathNoId "/data" m.name m.icon, .blob 1),
        (installedMetaPath "/data" m.name, .jmeta m),
        (installedExecPath "/data" m.name, .blob 0),
        (join2 (join2 "/proj" "assets") m.icon, .blob 1)],
        [applicationsDirOf "/data", hostBinDirOf "/data" m.name, appsPathOf "/data",
         "/data/icons/hicolor/scalable/apps"]⟩ =
      ⟨.listed [m.name], []⟩ := by
  have hd : ¬ ("/data" : String) = "" := by decide
  have hA : FS.hasDir
      ⟨[(desktopPathOfName "/data" m.name,
          .text (desktopEntryText m.name (installedExecPath "/data" m.name)
            (installedIconPathNoId "/data" m.name m.icon))),
        (installedIconPathNoId "/data" m.name m.icon, .blob 1),
        (installedMetaPath "/data" m.name, .jmeta m),
        (installedExecPath "/data" m.name, .blob 0),
        (join2 (join2 "/proj" "assets") m.icon, .blob 1)],
        [applicationsDirOf "/data", hostBinDirOf "/data" m.name, appsPathOf "/data",
         "/data/icons/hicolor/scalable/apps"]⟩ (appsPathOf "/data") = true := by
    rw [hasDir_cons, if_neg (by decide), hasDir_cons,
      if_neg (fun he => ne_hostBinDir_appsPath hd hname he.symm), hasDir_cons, if_pos rfl]
  have hEn : entryNamesOf
      ⟨[(desktopPathOfName "/data" m.name,
          .text (desktopEntryText m.name (installedExecPath "/data" m.name)
            (installedIconPathNoId "/data" m.name m.icon))),
        (installedIconPathNoId "/data" m.name m.icon, .blob 1),
        (installedMetaPath "/data" m.name, .jmeta m),
        (installedExecPath "/data" m.name, .blob 0),
        (join2 (join2 "/proj" "assets") m.icon, .blob 1)],
        [applicationsDirOf "/data", hostBinDirOf "/data" m.name, appsPathOf "/data",
         "/data/icons/hicolor/scalable/apps"]⟩ (appsPathOf "/data") =
      [sanitizeFileName m.name] := by
    unfold entryNamesOf
    show (List.filter _ [applicationsDirOf "/data", hostBinDirOf "/data" m.name,
      appsPathOf "/data", "/data/icons/hicolor/scalable/apps"]).map _ = _
    rw [List.filter_cons, List.filter_cons, List.filter_cons, List.filter_cons]
    rw [show isDirectChildPath (appsPathOf "/data") (applicationsDirOf "/data") = false by decide]
    rw [isDirectChildPath_hostBinDir (by decide) hname]
    rw [show isDirectChildPath (appsPathOf "/data") (appsPathOf "/data") = false by decide]
    rw [show isDirectChildPath (appsPathOf "/data")
      "/data/icons/hicolor/scalable/apps" = false by decide]
    simp only [Bool.false_eq_true, eq_self_iff_true, if_true, if_false, ite_true, ite_false,
      List.filter_nil, List.map_cons, List.map_nil]
    rw [drop_hostBinDir hd hname, str_mk_data]
  have hMeta : FS.readFile
      ⟨[(desktopPathOfName "/data" m.name,
          .text (desktopEntryText m.name (installedExecPath "/data" m.name)
            (installedIconPathNoId "/data" m.name m.icon))),
        (installedIconPathNoId "/data" m.name m.icon, .blob 1),
        (installedMetaPath "/data" m.name, .jmeta m),
        (installedExecPath "/data" m.name, .blob 0),
        (join2 (join2 "/proj" "assets") m.icon, .blob 1)],
        [applicationsDirOf "/data", hostBinDirOf "/data" m.name, appsPathOf "/data",
         "/data/icons/hicolor/scalable/apps"]⟩ (installedMetaPath "/data" m.name) =
      some (.jmeta m) := by
    rw [readFile_cons, if_neg (ne_meta_desktopName hd hname), readFile_cons,
      if_neg (ne_meta_iconNoId hd hname hicon hmi), readFile_cons, if_pos rfl]
  have hDesk : FS.readFile
      ⟨[(desktopPathOfName "/data" m.name,
          .text (desktopEntryText m.name (installedExecPath "/data" m.name)
            (installedIconPathNoId "/data" m.name m.icon))),
        (installedIconPathNoId "/data" m.name m.icon, .blob 1),
        (installedMetaPath "/data" m.name, .jmeta m),
        (installedExecPath "/data" m.name, .blob 0),
        (join2 (join2 "/proj" "assets") m.icon, .blob 1)],
        [applicationsDirOf "/data", hostBinDirOf "/data" m.name, appsPathOf "/data",
         "/data/icons/hicolor/scalable/apps"]⟩ (desktopPathOfName "/data" m.name) =
      some (.text (desktopEntryText m.name (installedExecPath "/data" m.name)
        (installedIconPathNoId "/data" m.name m.icon))) := by
    rw [readFile_cons, if_pos rfl]
  have hLE : listEntry
      ⟨[(desktopPathOfName "/data" m.name,
          .text (desktopEntryText m.name (installedExecPath "/data" m.name)
            (installedIconPathNoId "/data" m.name m.icon))),
        (installedIconPathNoId "/data" m.name m.icon, .blob 1),
        (installedMetaPath "/data" m.name, .jmeta m),
        (installedExecPath "/data" m.name, .blob 0),
        (join2 (join2 "/proj" "assets") m.icon, .blob 1)],
        [applicationsDirOf "/data", hostBinDirOf "/data" m.name, appsPathOf "/data",
         "/data/icons/hicolor/scalable/apps"]⟩ "/data" (appsPathOf "/data")
      (sanitizeFileName m.name) = .ok (some m.name) := by
    simp only [listEntry, bind, Except.bind]
    rw [hostBinDirOf_def, installedMetaPath_def, hMeta]
    simp only [metadataIdOf]
    simp only [hjs, Bool.false_eq_true, ite_false, if_false]
    rw [desktopPathOfName_def, hDesk]
    simp only [readTextContent]
    rw [findNameCapture_desktopEntryText _ _ _ hlt]
    simp only [Option.map_some']
    rw [str_mk_data, htrim]
  simp only [listAppsCore, FS.existsPath, hA, Bool.or_true, Bool.not_true, Bool.false_eq_true,
    if_false, ite_false, hEn, listLoop, hLE, jsTruthy, hname, decide_False, Bool.not_false,
    decide_eq_true_eq, ite_true, if_true, Option.getD_some, ite_self, reduceIte]
  simp [hname]

/-- C2 (amended).  The claim said `install` followed by `list` surfaces the
installed application's `name` exactly as given in `install.json`.  As stated
this fails (see `C2_counterexample`): `listApps` extracts the `Name=` value
with `match(/Name=(.*)/)` and applies `.trim()`, so a name with leading or
trailing JS whitespace, or with an embedded line terminator, is not recovered
character for character.  Amended claim, changed only as the counterexample
forces: for every metadata whose `name` is non-empty, is fixed by JS `trim`,
and contains no line terminator (and whose icon asset is a real file not
named `metadata.json`, with an `.svg` icon whenever a non-empty `id` is set),
a successful `install` followed by `list` surfaces exactly `name`. -/
theorem C2_roundtrip_amended
    (m : InstallMetadata)
    (htrim : jsTrim m.name = m.name) (hname : ¬ m.name = "")
    (hlt : ∀ c ∈ m.name.data, isJsLineTerminator c = false)
    (hicon : ¬ m.icon = "") (hmi : ¬ m.icon = "metadata.json")
    (hsvg : jsTruthy m.id = true → extname m.icon = ".svg") :
    (installAppCore "/data" "bin" m "/proj" (initFS m)).2 = .ok () ∧
    listAppsCore "/data" (installAppCore "/data" "bin" m "/proj" (initFS m)).1 =
      ⟨.listed [m.name], []⟩ := by
  by_cases hjs : jsTruthy m.id = true
  · cases hmid : m.id with
    | none => rw [hmid] at hjs; exact absurd hjs (by decide)
    | some idv =>
      have hidv : ¬ idv = "" := by
        rw [hmid] at hjs
        simpa [jsTruthy] using hjs
      have hext := hsvg hjs
      have hne : ¬ idv ++ ".svg" = "" := append_ne_empty_right _ (by decide)
      have hmaster := installAppCore_withId_run "/data" "bin" "/proj" m idv (initFS m)
        (.blob 0) (.blob 1) (by decide) hname hmid hidv hext
        (initFS_read_bin m) (initFS_read_iconSrc m hicon)
        (iconSrc_ne_bin hicon) (iconSrc_ne_exec hicon hname) (iconSrc_ne_meta hicon hname)
        (initFS_hasDir_icons m)
        (initFS_hasDir_false m _ (by decide))
        (initFS_hasDir_false m _ (ne_hostBinDir_iconsDir (by decide) hname))
        (initFS_hasDir_false m _ (ne_exec_iconsDir (by decide) hname))
        (initFS_hasDir_false m _ (ne_meta_iconsDir (by decide) hname))
        (initFS_hasDir_false m _ (ne_iconId_iconsDir (by decide) hne))
        (initFS_hasDir_false m _ (by decide))
        (initFS_hasDir_false m _ (ne_desktopId_iconsDir (by decide)))
      rw [hmaster, initFS_filter_bin m hicon]
      exact ⟨rfl, listAfterInstall_withId m idv hname hidv hmid htrim hlt hicon hmi⟩
  · have hjs2 : jsTruthy m.id = false := by
      cases h : jsTruthy m.id
      · rfl
      · exact absurd h hjs
    have hmaster := installAppCore_noId_run "/data" "bin" "/proj" m (initFS m)
      (.blob 0) (.blob 1) (by decide) hname hjs2 hicon
      (initFS_read_bin m) (initFS_read_iconSrc m hicon)
      (iconSrc_ne_bin hicon) (iconSrc_ne_exec hicon hname) (iconSrc_ne_meta hicon hname)
      (initFS_hasDir_false m _ (by decide))
      (initFS_hasDir_false m _ (ne_hostBinDir_iconsDir (by decide) hname))
      (initFS_hasDir_false m _ (ne_exec_iconsDir (by decide) hname))
      (initFS_hasDir_false m _ (ne_meta_iconsDir (by decide) hname))
      (initFS_hasDir_false m _ (ne_iconNoId_iconsDir (by decide) hname hicon))
      (initFS_hasDir_false m _ (by decide))
      (initFS_hasDir_false m _ (ne_desktopName_iconsDir (by decide)))
    rw [hmaster, initFS_filter_bin m hicon]
    exact ⟨rfl, listAfterInstall_noId m hname hjs2 htrim hlt hicon hmi⟩

theorem isDirectChildPath_join2 {root p : String} (hr : ¬ root = "") (hp : ¬ p = "")
    (hs : (p.data.contains '/') = false) :
    isDirectChildPath root (join2 root p) = true := by
  rw [join2_of_ne hr hp]
  unfold isDirectChildPath
  have hd : (root ++ "/" ++ p).data = (root ++ "/").data ++ p.data := by
    simp [str_data_append, List.append_assoc]
  have hl : root.length + 1 = (root ++ "/").data.length := by
    show _ = (root ++ "/").length
    rw [String.length_append]
    rfl
  have hs2 : '/' ∉ p.data := by simpa using hs
  rw [hd, isPrefixOf_append_self, hl, List.drop_left]
  simp [str_ne_empty_data hp, hs2]

theorem specAllowedChar_iff (c : Char) : specAllowedChar c ↔ isAllowedChar c = true := by
  unfold specAllowedChar isAllowedChar
  simp only [Bool.or_eq_true, Bool.and_eq_true, decide_eq_true_eq]
  tauto

/-- C5: for every application name whose sanitized install directory does not
exist, `uninstallApp` reports the "not installed" outcome, raises no error,
attempts no deletion, and leaves the whole filesystem unchanged. -/
theorem C5_uninstall_not_installed_noop (dataDir appName : String) (fs : FS)
    (h : fs.existsPath (uninstallTargetPath dataDir appName) = false) :
    uninstallAppCore dataDir appName fs = ⟨fs, .notInstalled, []⟩ := by
  simp only [uninstallAppCore, h, Bool.not_false, ite_true, if_true]

theorem C5_witness :
    fsUninstMissingDesktop.existsPath (uninstallTargetPath "/data" "Nope") = false ∧
    uninstallAppCore "/data" "Nope" fsUninstMissingDesktop =
      ⟨fsUninstMissingDesktop, .notInstalled, []⟩ :=
  ⟨by decide, C5_uninstall_not_installed_noop "/data" "Nope" fsUninstMissingDesktop (by decide)⟩

/-- C9: `installApp` is not transactional.  At the explicit input below
(metadata with id `com.example.my_app` and icon `icon.png`, a fresh
filesystem) the executable has already been moved into the install directory
and the source file is gone, yet install fails with the unsupported-icon
error and no launcher file has been written. -/
theorem C9_non_transactional :
    (installAppCore "/data" "bin" mWithIdPng "/proj" (initFS mWithIdPng)).2 =
      .error .unsupportedIconFormat ∧
    (installAppCore "/data" "bin" mWithIdPng "/proj" (initFS mWithIdPng)).1.readFile
      "/data/deno-installed-apps/My_App/My_App" = some (.blob 0) ∧
    (installAppCore "/data" "bin" mWithIdPng "/proj" (initFS mWithIdPng)).1.readFile
      "bin" = none ∧
    (installAppCore "/data" "bin" mWithIdPng "/proj" (initFS mWithIdPng)).1.readFile
      "/data/applications/com.example.my_app.desktop" = none ∧
    (installAppCore "/data" "bin" mWithIdPng "/proj" (initFS mWithIdPng)).1.readFile
      "/data/applications/My_App.desktop" = none := by
  decide

/-- C3 (amended).  The claim said a failed deletion during uninstall is
reported and the remaining deletions are still attempted.  In the code all
three `Deno.removeSync` calls sit in one `try` block, so the first failure
jumps to the `catch`: the failure is reported (uninstall does not throw) but
the remaining deletions are NOT attempted (see `C3_counterexample`).
Amended claim: when the launcher-file deletion fails, the error is caught
and reported and the uninstall stops there — the system-icon deletion is not
attempted and the final state is exactly the state after the first
(successful) deletion. -/
theorem C3_uninstall_stops_at_first_failure
    (dataDir appName : String) (fs : FS) (mm : InstallMetadata) (idv : String)
    (hex : fs.existsPath (uninstallTargetPath dataDir appName) = true)
    (hmeta : fs.readFile (join2 (uninstallTargetPath dataDir appName) "metadata.json") =
      some (.jmeta mm))
    (hid : mm.id = some idv) (hidv : ¬ idv = "")
    (hdesk : (fs.removeTree (uninstallTargetPath dataDir appName)).readFile
      (desktopPathOfId dataDir idv) = none) :
    uninstallAppCore dataDir appName fs =
      ⟨fs.removeTree (uninstallTargetPath dataDir appName), .errorLogged,
        [uninstallTargetPath dataDir appName, desktopPathOfId dataDir idv]⟩ := by
  simp only [uninstallAppCore, FS.removeRecursiveStep, FS.removeFileStep,
    hex, hmeta, parseMetadataOpt, Option.bind, hid, jsTruthy, hidv,
    Option.getD_some, desktopPathOfId_def, hdesk, Option.isSome,
    Bool.not_true, Bool.not_false, Bool.false_eq_true, Bool.true_eq_false,
    ite_true, ite_false, if_true, if_false, decide_True, decide_False,
    decide_eq_true_eq, reduceIte]

theorem C3_counterexample :
    (uninstallAppCore "/data" "My_App" fsUninstMissingDesktop).outcome = .errorLogged ∧
    (uninstallAppCore "/data" "My_App" fsUninstMissingDesktop).attempted =
      ["/data/deno-installed-apps/My_App", "/data/applications/com.example.x.desktop"] ∧
    "/data/icons/hicolor/scalable/apps/com.example.x.svg" ∉
      (uninstallAppCore "/data" "My_App" fsUninstMissingDesktop).attempted ∧
    (uninstallAppCore "/data" "My_App" fsUninstMissingDesktop).fs.readFile
      "/data/icons/hicolor/scalable/apps/com.example.x.svg" = some (.blob 5) := by
  decide

theorem C3_witness :
    fsUninstMissingDesktop.existsPath (uninstallTargetPath "/data" "My_App") = true ∧
    uninstallAppCore "/data" "My_App" fsUninstMissingDesktop =
      ⟨fsUninstMissingDesktop.removeTree (uninstallTargetPath "/data" "My_App"), .errorLogged,
        [uninstallTargetPath "/data" "My_App", desktopPathOfId "/data" "com.example.x"]⟩ :=
  ⟨by decide,
   C3_uninstall_stops_at_first_failure "/data" "My_App" fsUninstMissingDesktop mUninst
     "com.example.x" (by decide) (by decide) (by decide) (by decide) (by decide)⟩

/-- C4 (amended).  The claim said every entry whose launcher cannot be read
or lacks a `Name=` line is skipped with a warning while the remaining
entries are still processed.  In the code the whole loop sits in one `try`,
so only the lacks-`Name=` case is skip-and-continue; an unreadable launcher
throws, the `catch` logs the error, and the remaining entries are NOT
processed (though `list` itself does not fail).  Amended claim: an entry
whose launcher yields no (non-empty, trimmed) `Name=` capture is warned
about and the loop continues with the remaining entries; an entry whose
launcher read throws aborts the loop, discarding the remaining entries. -/
theorem C4_list_skip_and_abort
    (fs : FS) (dataDir appsPath a : String) (rest : List String) :
    (∀ oname, listEntry fs dataDir appsPath a = .ok oname → jsTruthy oname = false →
      listLoop fs dataDir appsPath (a :: rest) =
        ⟨(listLoop fs dataDir appsPath rest).apps,
         a :: (listLoop fs dataDir appsPath rest).warned,
         (listLoop fs dataDir appsPath rest).aborted⟩) ∧
    (listEntry fs dataDir appsPath a = .error () →
      listLoop fs dataDir appsPath (a :: rest) = ⟨[], [], true⟩) := by
  constructor
  · intro oname h1 h2
    simp only [listLoop, h1, h2, Bool.false_eq_true, ite_false, if_false]
  · intro h
    simp only [listLoop, h]

theorem C4_counterexample :
    listAppsCore "/data" fsListAbort = ⟨.errorListing, []⟩ ∧
    listEntry fsListAbort "/data" "/data/deno-installed-apps" "B" = .ok (some "Good") ∧
    ¬ listAppsCore "/data" fsListAbort = ⟨.listed ["Good"], ["A"]⟩ := by
  decide

theorem C4_witness :
    (listEntry fsWarn "/data" "/data/deno-installed-apps" "W" = .ok none ∧
      jsTruthy (none : Option String) = false ∧
      listLoop fsWarn "/data" "/data/deno-installed-apps" ["W"] = ⟨[], ["W"], false⟩) ∧
    (listEntry fsListAbort "/data" "/data/deno-installed-apps" "A" = .error () ∧
      listLoop fsListAbort "/data" "/data/deno-installed-apps" ["A", "B"] = ⟨[], [], true⟩) := by
  constructor
  · refine ⟨by decide, by decide, ?_⟩
    rw [(C4_list_skip_and_abort fsWarn "/data" "/data/deno-installed-apps" "W" []).1 none
      (by decide) (by decide)]
    decide
  · refine ⟨by decide, ?_⟩
    rw [(C4_list_skip_and_abort fsListAbort "/data" "/data/deno-installed-apps" "A" ["B"]).2
      (by decide)]

/-- C1: for every metadata with an id set — formalised, following the code's
and the specification's notion of a "provided" id, as `id` present and
non-empty (`if (metadata.id)` in the source is JS truthiness) — under the
scenario preconditions (executable and icon asset exist, the icon-theme
directory exists, the application is not already installed): if the icon
filename's extension is not `.svg`, install fails with the
unsupported-icon-format error; if it is `.svg`, install copies the icon
content to `<dataDir>/icons/hicolor/scalable/apps/<id>.svg` and writes the
launcher to `<dataDir>/applications/<id>.desktop`, whose text is the
desktop-entry template with `Icon=<id>`. -/
theorem C1_withId_svg_check_and_paths
    (dataDir executablePath appDir : String) (m : InstallMetadata) (idv : String) (fs : FS)
    (ec ic : FileContent)
    (hdd : ¬ dataDir = "") (hname : ¬ m.name = "")
    (hid : m.id = some idv) (hidv : ¬ idv = "")
    (hex : fs.readFile executablePath = some ec)
    (hic : fs.readFile (iconSrcPath appDir m.icon) = some ic)
    (hsrc1 : ¬ iconSrcPath appDir m.icon = executablePath)
    (hsrc2 : ¬ iconSrcPath appDir m.icon = installedExecPath dataDir m.name)
    (hsrc3 : ¬ iconSrcPath appDir m.icon = installedMetaPath dataDir m.name)
    (hicons : fs.hasDir (iconsAppsDirOf dataDir) = true)
    (hd1 : fs.hasDir (appsPathOf dataDir) = false)
    (hd2 : fs.hasDir (hostBinDirOf dataDir m.name) = false)
    (hd3 : fs.hasDir (installedExecPath dataDir m.name) = false)
    (hd4 : fs.hasDir (installedMetaPath dataDir m.name) = false)
    (hd5 : fs.hasDir (installedIconPathOfId dataDir idv ".svg") = false)
    (hd6 : fs.hasDir (applicationsDirOf dataDir) = false)
    (hd7 : fs.hasDir (desktopPathOfId dataDir idv) = false) :
    (¬ extname m.icon = ".svg" →
      (installAppCore dataDir executablePath m appDir fs).2 =
        .error .unsupportedIconFormat) ∧
    (extname m.icon = ".svg" →
      (installAppCore dataDir executablePath m appDir fs).2 = .ok () ∧
      (installAppCore dataDir executablePath m appDir fs).1.readFile
        (installedIconPathOfId dataDir idv ".svg") = some ic ∧
      (installAppCore dataDir executablePath m appDir fs).1.readFile
        (desktopPathOfId dataDir idv) =
        some (.text (desktopEntryText m.name (installedExecPath dataDir m.name) idv))) := by
  constructor
  · intro hna
    rw [installAppCore_withId_badExt_run dataDir executablePath appDir m idv fs ec
      hdd hname hid hidv hna hex hd1 hd2 hd3 hd4]
  · intro hsvg
    have hne : ¬ idv ++ ".svg" = "" := append_ne_empty_right _ (by decide)
    have h := installAppCore_withId_run dataDir executablePath appDir m idv fs ec ic
      hdd hname hid hidv hsvg hex hic hsrc1 hsrc2 hsrc3 hicons hd1 hd2 hd3 hd4 hd5 hd6 hd7
    refine ⟨?_, ?_, ?_⟩
    · rw [h]
    · simp only [h]
      rw [readFile_cons, if_neg (ne_iconId_desktopId hdd hne), readFile_cons, if_pos rfl]
    · simp only [h]
      rw [readFile_cons, if_pos rfl]

theorem C1_witness :
    (mWithIdSvg.id = some "com.example.my_app" ∧ extname mWithIdSvg.icon = ".svg" ∧
      (initFS mWithIdSvg).readFile "bin" = some (.blob 0) ∧
      (initFS mWithIdSvg).hasDir (iconsAppsDirOf "/data") = true) ∧
    ((¬ extname mWithIdSvg.icon = ".svg" →
        (installAppCore "/data" "bin" mWithIdSvg "/proj" (initFS mWithIdSvg)).2 =
          .error .unsupportedIconFormat) ∧
      (extname mWithIdSvg.icon = ".svg" →
        (installAppCore "/data" "bin" mWithIdSvg "/proj" (initFS mWithIdSvg)).2 = .ok () ∧
        (installAppCore "/data" "bin" mWithIdSvg "/proj" (initFS mWithIdSvg)).1.readFile
          (installedIconPathOfId "/data" "com.example.my_app" ".svg") = some (.blob 1) ∧
        (installAppCore "/data" "bin" mWithIdSvg "/proj" (initFS mWithIdSvg)).1.readFile
          (desktopPathOfId "/data" "com.example.my_app") =
          some (.text (desktopEntryText mWithIdSvg.name
            (installedExecPath "/data" mWithIdSvg.name) "com.example.my_app")))) :=
  ⟨⟨by decide, by decide, by decide, by decide⟩,
   C1_withId_svg_check_and_paths "/data" "bin" "/proj" mWithIdSvg "com.example.my_app"
     (initFS mWithIdSvg) (.blob 0) (.blob 1) (by decide) (by decide) (by decide) (by decide)
     (by decide) (by decide) (by decide) (by decide) (by decide) (by decide) (by decide)
     (by decide) (by decide) (by decide) (by decide) (by decide) (by decide)⟩

/-- C8: for every metadata without an id, under the scenario preconditions
(executable and icon asset exist, the application is not already
installed), install succeeds, copies the icon content unchanged into the
application's install directory (at `<hostBinDir>/<icon>`), and writes the
launcher to `<dataDir>/applications/<sanitized-name>.desktop` whose `Icon=`
field is the full path of that copied icon (absolute whenever `dataDir`
is). -/
theorem C8_noId_icon_and_launcher
    (dataDir executablePath appDir : String) (m : InstallMetadata) (fs : FS)
    (ec ic : FileContent)
    (hdd : ¬ dataDir = "") (hname : ¬ m.name = "")
    (hid : m.id = none)
    (hicon : ¬ m.icon = "")
    (hex : fs.readFile executablePath = some ec)
    (hic : fs.readFile (iconSrcPath appDir m.icon) = some ic)
    (hsrc1 : ¬ iconSrcPath appDir m.icon = executablePath)
    (hsrc2 : ¬ iconSrcPath appDir m.icon = installedExecPath dataDir m.name)
    (hsrc3 : ¬ iconSrcPath appDir m.icon = installedMetaPath dataDir m.name)
    (hd1 : fs.hasDir (appsPathOf dataDir) = false)
    (hd2 : fs.hasDir (hostBinDirOf dataDir m.name) = false)
    (hd3 : fs.hasDir (installedExecPath dataDir m.name) = false)
    (hd4 : fs.hasDir (installedMetaPath dataDir m.name) = false)
    (hd5 : fs.hasDir (installedIconPathNoId dataDir m.name m.icon) = false)
    (hd6 : fs.hasDir (applicationsDirOf dataDir) = false)
    (hd7 : fs.hasDir (desktopPathOfName dataDir m.name) = false) :
    (installAppCore dataDir executablePath m appDir fs).2 = .ok () ∧
    (installAppCore dataDir executablePath m appDir fs).1.readFile
      (installedIconPathNoId dataDir m.name m.icon) = some ic ∧
    (installAppCore dataDir executablePath m appDir fs).1.readFile
      (desktopPathOfName dataDir m.name) =
      some (.text (desktopEntryText m.name (installedExecPath dataDir m.name)
        (installedIconPathNoId dataDir m.name m.icon))) := by
  have hjs : jsTruthy m.id = false := by rw [hid]; rfl
  have h := installAppCore_noId_run dataDir executablePath appDir m fs ec ic
    hdd hname hjs hicon hex hic hsrc1 hsrc2 hsrc3 hd1 hd2 hd3 hd4 hd5 hd6 hd7
  refine ⟨?_, ?_, ?_⟩
  · rw [h]
  · simp only [h]
    rw [readFile_cons, if_neg (ne_iconNoId_desktopName hdd hname hicon), readFile_cons,
      if_pos rfl]
  · simp only [h]
    rw [readFile_cons, if_pos rfl]

theorem C8_witness :
    (mNoId.id = none ∧ (initFS mNoId).readFile "bin" = some (.blob 0) ∧
      (initFS mNoId).readFile (iconSrcPath "/proj" mNoId.icon) = some (.blob 1)) ∧
    ((installAppCore "/data" "bin" mNoId "/proj" (initFS mNoId)).2 = .ok () ∧
      (installAppCore "/data" "bin" mNoId "/proj" (initFS mNoId)).1.readFile
        (installedIconPathNoId "/data" mNoId.name mNoId.icon) = some (.blob 1) ∧
      (installAppCore "/data" "bin" mNoId "/proj" (initFS mNoId)).1.readFile
        (desktopPathOfName "/data" mNoId.name) =
        some (.text (desktopEntryText mNoId.name (installedExecPath "/data" mNoId.name)
          (installedIconPathNoId "/data" mNoId.name mNoId.icon)))) :=
  ⟨⟨by decide, by decide, by decide⟩,
   C8_noId_icon_and_launcher "/data" "bin" "/proj" mNoId (initFS mNoId) (.blob 0) (.blob 1)
     (by decide) (by decide) (by decide) (by decide) (by decide) (by decide) (by decide)
     (by decide) (by decide) (by decide) (by decide) (by decide) (by decide) (by decide)
     (by decide) (by decide)⟩

theorem C2_counterexample :
    (installAppCore "/data" "bin" mTrailingSpace "/proj" (initFS mTrailingSpace)).2 = .ok () ∧
    listAppsCore "/data"
      (installAppCore "/data" "bin" mTrailingSpace "/proj" (initFS mTrailingSpace)).1 =
      ⟨.listed ["My App"], []⟩ ∧
    mTrailingSpace.name = "My App " ∧ ¬ ("My App" : String) = "My App " := by
  decide

theorem C2_witness :
    (jsTrim mNoId.name = mNoId.name ∧ ¬ mNoId.name = "" ∧
      (∀ c ∈ mNoId.name.data, isJsLineTerminator c = false) ∧
      ¬ mNoId.icon = "" ∧ ¬ mNoId.icon = "metadata.json") ∧
    ((installAppCore "/data" "bin" mNoId "/proj" (initFS mNoId)).2 = .ok () ∧
      listAppsCore "/data" (installAppCore "/data" "bin" mNoId "/proj" (initFS mNoId)).1 =
        ⟨.listed [mNoId.name], []⟩) :=
  ⟨⟨by decide, by decide, by decide, by decide, by decide⟩,
   C2_roundtrip_amended mNoId (by decide) (by decide) (by decide) (by decide) (by decide)
     (fun h => absurd h (by decide))⟩

/-- C6: `sanitizeFileName` replaces exactly the characters outside
`[A-Za-z0-9_-]` (as the claim writes the class: `specAllowedChar`) with
`_`, keeping every other character in place; `"My App!"` yields
`"My_App_"`; and the sanitized form is what install uses both as the
install-directory name under the install root and, when no id is given,
as the desktop-file stem. -/
theorem C6_sanitize_spec :
    (∀ s : String, (sanitizeFileName s).length = s.length ∧
      ∀ p ∈ s.data.zip (sanitizeFileName s).data,
        (specAllowedChar p.1 → p.2 = p.1) ∧ (¬ specAllowedChar p.1 → p.2 = '_')) ∧
    sanitizeFileName "My App!" = "My_App_" ∧
    (∀ m : InstallMetadata, jsTruthy m.id = false → ¬ m.name = "" → ¬ m.icon = "" →
      (installAppCore "/data" "bin" m "/proj" (initFS m)).2 = .ok () ∧
      (installAppCore "/data" "bin" m "/proj" (initFS m)).1.hasDir
        (join2 (appsPathOf "/data") (sanitizeFileName m.name)) = true ∧
      (installAppCore "/data" "bin" m "/proj" (initFS m)).1.readFile
        (join2 (applicationsDirOf "/data") (sanitizeFileName m.name ++ ".desktop")) =
        some (.text (desktopEntryText m.name (installedExecPath "/data" m.name)
          (installedIconPathNoId "/data" m.name m.icon)))) := by
  refine ⟨?_, by decide, ?_⟩
  · intro s
    refine ⟨sanitizeFileName_length s, ?_⟩
    rw [sanitizeFileName_data]
    induction s.data with
    | nil =>
      intro p hp
      cases hp
    | cons a l ih =>
      intro p hp
      rw [List.map_cons, List.zip_cons_cons] at hp
      rcases List.mem_cons.mp hp with h | h
      · subst h
        constructor
        · intro hs
          have hb := (specAllowedChar_iff a).mp hs
          show (if isAllowedChar a then a else '_') = a
          rw [if_pos hb]
        · intro hs
          have hb : ¬ isAllowedChar a = true := fun hh => hs ((specAllowedChar_iff a).mpr hh)
          show (if isAllowedChar a then a else '_') = '_'
          rw [if_neg hb]
      · exact ih p h
  · intro m hjs hname hicon
    have hmaster := installAppCore_noId_run "/data" "bin" "/proj" m (initFS m)
      (.blob 0) (.blob 1) (by decide) hname hjs hicon
      (initFS_read_bin m) (initFS_read_iconSrc m hicon)
      (iconSrc_ne_bin hicon) (iconSrc_ne_exec hicon hname) (iconSrc_ne_meta hicon hname)
      (initFS_hasDir_false m _ (by decide))
      (initFS_hasDir_false m _ (ne_hostBinDir_iconsDir (by decide) hname))
      (initFS_hasDir_false m _ (ne_exec_iconsDir (by decide) hname))
      (initFS_hasDir_false m _ (ne_meta_iconsDir (by decide) hname))
      (initFS_hasDir_false m _ (ne_iconNoId_iconsDir (by decide) hname hicon))
      (initFS_hasDir_false m _ (by decide))
      (initFS_hasDir_false m _ (ne_desktopName_iconsDir (by decide)))
    refine ⟨?_, ?_, ?_⟩
    · rw [hmaster]
    · simp only [hmaster]
      rw [hostBinDirOf_def, hasDir_cons,
        if_neg (fun hc => ne_applications_hostBinDir (by decide) hname hc.symm),
        hasDir_cons, if_pos rfl]
    · simp only [hmaster]
      rw [desktopPathOfName_def, readFile_cons, if_pos rfl]

theorem C6_witness :
    sanitizeFileName "My App!" = "My_App_" ∧
    (jsTruthy mNoId.id = false ∧ ¬ mNoId.name = "" ∧ ¬ mNoId.icon = "") ∧
    ((installAppCore "/data" "bin" mNoId "/proj" (initFS mNoId)).2 = .ok () ∧
      (installAppCore "/data" "bin" mNoId "/proj" (initFS mNoId)).1.hasDir
        (join2 (appsPathOf "/data") (sanitizeFileName mNoId.name)) = true ∧
      (installAppCore "/data" "bin" mNoId "/proj" (initFS mNoId)).1.readFile
        (join2 (applicationsDirOf "/data") (sanitizeFileName mNoId.name ++ ".desktop")) =
        some (.text (desktopEntryText mNoId.name (installedExecPath "/data" mNoId.name)
          (installedIconPathNoId "/data" mNoId.name mNoId.icon)))) :=
  ⟨C6_sanitize_spec.2.1, ⟨by decide, by decide, by decide⟩,
   C6_sanitize_spec.2.2 mNoId (by decide) (by decide) (by decide)⟩

/-- C7 (amended).  The per-OS positive cases hold as the claim states: on
Linux `XDG_DATA_HOME` when truthy, else `$HOME/.local/share` when `HOME` is
truthy; `$HOME/Library/Application Support` on macOS; `%APPDATA%` on
Windows.  But the claim's "returns none exactly when the OS is unknown or
the required environment variable is missing" is wrong under either reading
of "missing": the Linux and macOS branches test the variables for JS
truthiness, so a variable present but EMPTY behaves as missing, while the
Windows branch returns `env "APPDATA"` unconditionally, so an absent-only
reading fails on Linux and an unset-or-empty reading fails on Windows (see
the counterexample).  Amended: `getDataDir os env = none` iff the OS is
unknown, or it is Linux with both `XDG_DATA_HOME` and `HOME` falsy, or
macOS with `HOME` falsy, or Windows with `APPDATA` absent. -/
theorem C7_getDataDir_amended (os : String) (env : String → Option String) :
    (os = "linux" → jsTruthy (env "XDG_DATA_HOME") = true →
      getDataDir os env = env "XDG_DATA_HOME") ∧
    (os = "linux" → jsTruthy (env "XDG_DATA_HOME") = false →
      jsTruthy (env "HOME") = true →
      getDataDir os env = (env "HOME").map (fun h => h ++ "/.local/share")) ∧
    (os = "darwin" → jsTruthy (env "HOME") = true →
      getDataDir os env = (env "HOME").map (fun h => h ++ "/Library/Application Support")) ∧
    (os = "windows" → getDataDir os env = env "APPDATA") ∧
    (getDataDir os env = none ↔
      (knownOS os = false ∨
       (os = "linux" ∧ jsTruthy (env "XDG_DATA_HOME") = false ∧
         jsTruthy (env "HOME") = false) ∨
       (os = "darwin" ∧ jsTruthy (env "HOME") = false) ∨
       (os = "windows" ∧ env "APPDATA" = none))) := by
  refine ⟨?_, ?_, ?_, ?_, ?_⟩
  · intro h1 h2
    subst h1
    unfold getDataDir
    rw [if_pos rfl, if_pos h2]
  · intro h1 h2 h3
    subst h1
    have hn : ¬ jsTruthy (env "XDG_DATA_HOME") = true := by
      rw [h2]; exact Bool.false_ne_true
    unfold getDataDir
    rw [if_pos rfl, if_neg hn, if_pos h3]
  · intro h1 h2
    subst h1
    unfold getDataDir
    rw [if_neg (by decide : ¬ ("darwin" : String) = "linux"), if_pos rfl, if_pos h2]
  · intro h1
    subst h1
    unfold getDataDir
    rw [if_neg (by decide : ¬ ("windows" : String) = "linux"),
      if_neg (by decide : ¬ ("windows" : String) = "darwin"), if_pos rfl]
  · by_cases h1 : os = "linux"
    · subst h1
      have hk : knownOS "linux" = true := by decide
      have hne1 : ¬ ("linux" : String) = "darwin" := by decide
      have hne2 : ¬ ("linux" : String) = "windows" := by decide
      unfold getDataDir
      rw [if_pos rfl]
      by_cases hx : jsTruthy (env "XDG_DATA_HOME") = true
      · rw [if_pos hx]
        cases henv : env "XDG_DATA_HOME" with
        | none => rw [henv] at hx; exact absurd hx (by decide)
        | some s =>
          rw [henv] at hx
          simp [hk, hx, hne1, hne2]
      · have hx2 : jsTruthy (env "XDG_DATA_HOME") = false := by
          cases h : jsTruthy (env "XDG_DATA_HOME")
          · rfl
          · exact absurd h hx
        rw [if_neg hx]
        by_cases hh : jsTruthy (env "HOME") = true
        · rw [if_pos hh]
          cases hhv : env "HOME" with
          | none => rw [hhv] at hh; exact absurd hh (by decide)
          | some hs =>
            rw [hhv] at hh
            simp [hk, hx2, hh, hne1, hne2]
        · have hh2 : jsTruthy (env "HOME") = false := by
            cases h : jsTruthy (env "HOME")
            · rfl
            · exact absurd h hh
          rw [if_neg hh]
          simp [hk, hx2, hh2, hne1, hne2]
    · by_cases h2 : os = "darwin"
      · subst h2
        have hk : knownOS "darwin" = true := by decide
        have hne0 : ¬ ("darwin" : String) = "linux" := by decide
        have hne2 : ¬ ("darwin" : String) = "windows" := by decide
        unfold getDataDir
        rw [if_neg hne0, if_pos rfl]
        by_cases hh : jsTruthy (env "HOME") = true
        · rw [if_pos hh]
          cases hhv : env "HOME" with
          | none => rw [hhv] at hh; exact absurd hh (by decide)
          | some hs =>
            rw [hhv] at hh
            simp [hk, hh, hne0, hne2]
        · have hh2 : jsTruthy (env "HOME") = false := by
            cases h : jsTruthy (env "HOME")
            · rfl
            · exact absurd h hh
          rw [if_neg hh]
          simp [hk, hh2, hne0, hne2]
      · by_cases h3 : os = "windows"
        · subst h3
          have hk : knownOS "windows" = true := by decide
          have hne0 : ¬ ("windows" : String) = "linux" := by decide
          have hne1 : ¬ ("windows" : String) = "darwin" := by decide
          unfold getDataDir
          rw [if_neg hne0, if_neg hne1, if_pos rfl]
          simp [hk, hne0, hne1]
        · have hk : knownOS os = false := by simp [knownOS, h1, h2, h3]
          unfold getDataDir
          rw [if_neg h1, if_neg h2, if_neg h3]
          simp [hk, h1, h2, h3]

theorem C7_counterexample :
    (envHomeEmpty "HOME" = some "" ∧ requiredEnvAbsent "linux" envHomeEmpty = false ∧
      getDataDir "linux" envHomeEmpty = none) ∧
    (requiredEnvFalsy "windows" envAppdataEmpty = true ∧
      getDataDir "windows" envAppdataEmpty = some "") := by
  decide

theorem C7_witness :
    (("linux" : String) = "linux" ∧ jsTruthy (envXdg "XDG_DATA_HOME") = true) ∧
    getDataDir "linux" envXdg = envXdg "XDG_DATA_HOME" :=
  ⟨⟨rfl, by decide⟩, (C7_getDataDir_amended "linux" envXdg).1 rfl (by decide)⟩

/-- C10 (amended).  Every character of a sanitized name lies in
`[A-Za-z0-9_-]` — in particular `/` never occurs — the uninstall target is
always `join(installRoot, sanitized)`, and for every NON-EMPTY argument
that target is a direct child of the install root (so `"../x"`, sanitized
to `"___x"`, stays inside).  The original claim's "always a direct child"
fails for the empty argument: `sanitizeFileName "" = ""` and the path
`join` drops empty segments, so the target is the install root itself, and
uninstall then removes the whole root recursively (see the
counterexample). -/
theorem C10_sanitize_safety_amended (dataDir s : String) :
    (∀ c ∈ (sanitizeFileName s).data, specAllowedChar c) ∧
    '/' ∉ (sanitizeFileName s).data ∧
    uninstallTargetPath dataDir s = join2 (appsPathOf dataDir) (sanitizeFileName s) ∧
    (¬ s = "" →
      isDirectChildPath (appsPathOf dataDir) (uninstallTargetPath dataDir s) = true) ∧
    (s = "" → uninstallTargetPath dataDir s = appsPathOf dataDir) ∧
    sanitizeFileName "../x" = "___x" := by
  refine ⟨?_, ?_, rfl, ?_, ?_, by decide⟩
  · intro c hc
    exact (specAllowedChar_iff c).mpr (sanitizeFileName_allowed s c hc)
  · intro hc
    have h := sanitizeFileName_allowed s '/' hc
    exact absurd h (by decide)
  · intro hs
    show isDirectChildPath (appsPathOf dataDir)
      (join2 (appsPathOf dataDir) (sanitizeFileName s)) = true
    exact isDirectChildPath_join2 (appsPathOf_ne_empty dataDir)
      (sanitizeFileName_ne_empty hs) (sanitizeFileName_no_slash s)
  · intro hs
    subst hs
    show join2 (appsPathOf dataDir) (sanitizeFileName "") = appsPathOf dataDir
    exact join2_empty_right _ (appsPathOf_ne_empty dataDir)

theorem C10_counterexample :
    uninstallTargetPath "/data" "" = appsPathOf "/data" ∧
    isDirectChildPath (appsPathOf "/data") (uninstallTargetPath "/data" "") = false ∧
    fsUninstMissingDesktop.existsPath (uninstallTargetPath "/data" "") = true ∧
    (uninstallAppCore "/data" "" fsUninstMissingDesktop).fs.readFile
      "/data/deno-installed-apps/My_App/My_App" = none := by
  decide

theorem C10_witness :
    ((∀ c ∈ (sanitizeFileName "../x").data, specAllowedChar c) ∧
      '/' ∉ (sanitizeFileName "../x").data ∧
      uninstallTargetPath "/data" "../x" =
        join2 (appsPathOf "/data") (sanitizeFileName "../x") ∧
      (¬ ("../x" : String) = "" →
        isDirectChildPath (appsPathOf "/data") (uninstallTargetPath "/data" "../x") = true) ∧
      (("../x" : String) = "" → uninstallTargetPath "/data" "../x" = appsPathOf "/data") ∧
      sanitizeFileName "../x" = "___x") :=
  C10_sanitize_safety_amended "/data" "../x"
